import Mathlib

/-!
Verification of the alloc repository: a bump arena (arena.h), a LIFO stack
allocator (stack.h), a fixed-size slot pool (pool.h) and a multi-class slab
(slab.h), all in release mode (no DEBUG macros) and, for the arena, in
non-chaining mode.  Machine integers (size_t, uintptr_t) are modelled as Nat
with explicit reduction modulo 2 ^ 64 at the points where the C arithmetic
can wrap; pointers are byte addresses (Nat), with the null pointer at
address 0.  The C sources mask with bit operations of the form
(v + a - 1) AND NOT (a - 1); for a power-of-two a, the only alignments the
allocators accept (the arena rejects others at run time, the stack asserts),
this mask equals rounding down to a multiple of a, which we write as
division followed by multiplication.
-/

/-- Modulus of size_t / uintptr_t arithmetic on the LP64 targets the headers
are written for. -/
def size_t_mod : Nat := 2 ^ 64

/-- SIZE_MAX. -/
def SIZE_MAX : Nat := size_t_mod - 1

/-! ## Arena (arena.h, release mode, no block chaining) -/

/-- ARENA_DEFAULT_ALIGN: sizeof of the maximal scalar alignment type, 16 on
LP64 targets. -/
def ARENA_DEFAULT_ALIGN : Nat := 16

/-- struct arena_t (release fields only, non-chaining). -/
structure arena_t where
  buffer : Nat
  capacity : Nat
  offset : Nat
  initialized : Bool
deriving DecidableEq, Repr

/-- arena__is_power_of_two: x != 0 && (x & (x - 1)) == 0. -/
def arena__is_power_of_two (x : Nat) : Bool :=
  x != 0 && (x &&& (x - 1)) == 0

/-- arena__align_up: (value + align - 1) & NOT (align - 1), in size_t
arithmetic.  For the power-of-two align values that reach this function the
mask equals round-down to a multiple of align. -/
def arena__align_up (value align : Nat) : Nat :=
  (value + align - 1) % size_t_mod / align * align

/-- arena__calc_aligned_offset: the single admission decision.  Returns the
aligned offset and the padding, or none on wrap or when the request does not
fit below capacity. -/
def arena__calc_aligned_offset (current_offset align size capacity : Nat) :
    Option (Nat × Nat) :=
  let aligned := arena__align_up current_offset align
  if aligned < current_offset then none
  else
    let padding := aligned - current_offset
    if aligned > capacity then none
    else if size > capacity - aligned then none
    else some (aligned, padding)

/-- arena_init: accepts a null buffer only when size is 0. -/
def arena_init (buffer size : Nat) : Option arena_t :=
  if buffer = 0 ∧ size > 0 then none
  else some { buffer := buffer, capacity := size, offset := 0, initialized := true }

/-- arena__alloc (release, non-chaining): returns the allocated address, if
any, and the next arena state. -/
def arena__alloc (arena : arena_t) (size align : Nat) : Option Nat × arena_t :=
  if arena.initialized = false then (none, arena)
  else if arena__is_power_of_two align = false then (none, arena)
  else if size = 0 then (some (arena.buffer + arena.offset), arena)
  else
    match arena__calc_aligned_offset arena.offset align size arena.capacity with
    | none => (none, arena)
    | some (aligned, _padding) =>
        (some (arena.buffer + aligned), { arena with offset := aligned + size })

/-- Apply a list of (size, align) requests to an arena, keeping only the
final state (failed requests leave the state unchanged, as in the source). -/
def arena_run : arena_t → List (Nat × Nat) → arena_t
  | a, [] => a
  | a, (sz, al) :: rest => arena_run (arena__alloc a sz al).2 rest

/-! ## Stack (stack.h, release mode)

The stack stores a one-word header directly before every user region, so the
embedding carries a word-addressed view of the backing memory (field mem):
mem x is the machine word whose first byte sits at address x.  Only header
words are ever read or written by the allocator itself. -/

/-- STACK_MIN_ALIGNMENT = sizeof(size_t). -/
def STACK_MIN_ALIGNMENT : Nat := 8

/-- STACK_HEADER_SIZE = sizeof(size_t). -/
def STACK_HEADER_SIZE : Nat := 8

/-- struct stack_t (release fields) plus the in-band header memory. -/
structure stack_t where
  buffer : Nat
  capacity : Nat
  offset : Nat
  mem : Nat → Nat

/-- stack__is_power_of_two: n && !(n & (n - 1)). -/
def stack__is_power_of_two (n : Nat) : Bool :=
  n != 0 && (n &&& (n - 1)) == 0

/-- The silent raising of the requested alignment to STACK_MIN_ALIGNMENT
performed at the top of stack_alloc_aligned. -/
def stack__eff_align (alignment : Nat) : Nat :=
  if alignment < STACK_MIN_ALIGNMENT then STACK_MIN_ALIGNMENT else alignment

/-- (addr + alignment - 1) & NOT (alignment - 1) on uintptr_t; as with the
arena, the mask is written as round-down division for the power-of-two
alignments the allocator is specified for. -/
def stack__align_addr (addr alignment : Nat) : Nat :=
  (addr + alignment - 1) % size_t_mod / alignment * alignment

/-- stack__get_header: the address of the header word of an allocation. -/
def stack__get_header_addr (ptr : Nat) : Nat := ptr - STACK_HEADER_SIZE

/-- stack_init: rejects a null buffer and a zero size; the initial contents
of the region are arbitrary and supplied as mem0.  The source returns 0 or
-1, modelled as some / none. -/
def stack_init (buffer size : Nat) (mem0 : Nat → Nat) : Option stack_t :=
  if buffer = 0 ∨ size = 0 then none
  else some { buffer := buffer, capacity := size, offset := 0, mem := mem0 }

/-- stack_alloc_aligned (release): reserves a header word before the user
region, aligns the user address itself, checks wrap and capacity, stores the
previous offset into the header word and advances the watermark. -/
def stack_alloc_aligned (s : stack_t) (size alignment : Nat) :
    Option Nat × stack_t :=
  if size = 0 then (none, s)
  else
    let a := stack__eff_align alignment
    let prev_offset := s.offset
    let user_addr_aligned :=
      stack__align_addr (s.buffer + prev_offset + STACK_HEADER_SIZE) a
    let user_offset := (user_addr_aligned + size_t_mod - s.buffer) % size_t_mod
    let end_offset := (user_offset + size) % size_t_mod
    if end_offset < user_offset ∨ end_offset > s.capacity then (none, s)
    else
      let user_ptr := s.buffer + user_offset
      (some user_ptr,
        { s with
            offset := end_offset,
            mem := fun x =>
              if x = stack__get_header_addr user_ptr then prev_offset
              else s.mem x })

/-- stack_alloc: alloc with the default (minimum) alignment. -/
def stack_alloc (s : stack_t) (size : Nat) : Option Nat × stack_t :=
  stack_alloc_aligned s size STACK_MIN_ALIGNMENT

/-- stack_free (release): reads the header word of ptr and rewinds the
watermark to the stored previous offset.  Null is ignored; the debug
LIFO validation and the asserts are compiled out. -/
def stack_free (s : stack_t) (ptr : Nat) : stack_t :=
  if ptr = 0 then s
  else { s with offset := s.mem (stack__get_header_addr ptr) }

/-- Run a list of (size, alignment) requests, collecting the returned
pointers; none when any allocation in the sequence fails. -/
def stack_alloc_list : stack_t → List (Nat × Nat) → Option (List Nat × stack_t)
  | s, [] => some ([], s)
  | s, (sz, al) :: rest =>
    match stack_alloc_aligned s sz al with
    | (some p, s1) =>
      match stack_alloc_list s1 rest with
      | some (ps, s2) => some (p :: ps, s2)
      | none => none
    | (none, _) => none

/-- Run a list of requests keeping only the final state (failures leave the
state unchanged, as in the source). -/
def stack_run : stack_t → List (Nat × Nat) → stack_t
  | s, [] => s
  | s, (sz, al) :: rest => stack_run (stack_alloc_aligned s sz al).2 rest

/-! ## Pool (pool.h, release mode)

The pool threads its free list through the first pointer-width bytes of each
free slot.  The embedding replaces the in-band chain by the list of slot
addresses it denotes: the list head is the descriptor field free_list of the
source, and the stored next pointer of each free slot is the following list
entry.  pool_alloc pops the head, pool_free pushes the freed slot, exactly
as the pointer manipulations of the source do. -/

/-- POOL_ALIGN default: sizeof(void *). -/
def POOL_ALIGN : Nat := 8

def POOL_OK : Nat := 0
def POOL_ERR_NULL_POOL : Nat := 1
def POOL_ERR_NULL_BUFFER : Nat := 2
def POOL_ERR_BUFFER_TOO_SMALL : Nat := 3
def POOL_ERR_INVALID_SLOT_SIZE : Nat := 4
def POOL_ERR_INVALID_ALIGNMENT : Nat := 5
def POOL_ERR_NULL_PTR : Nat := 6
def POOL_ERR_INVALID_PTR : Nat := 7
def POOL_ERR_DOUBLE_FREE : Nat := 8

/-- struct pool (release fields; free_list as the denoted address list). -/
structure pool_t where
  buffer : Nat
  buffer_end : Nat
  free_list : List Nat
  slot_size : Nat
  slot_count : Nat
  free_count : Nat
deriving DecidableEq, Repr

/-- pool__align_up: (value + alignment - 1) & NOT (alignment - 1); POOL_ALIGN
is a power of two and the operands stay far below SIZE_MAX on the paths the
claims exercise, so the mask is round-down division without wrap. -/
def pool__align_up (value alignment : Nat) : Nat :=
  (value + alignment - 1) / alignment * alignment

/-- pool__build_free_list: the source threads the slots backward so that
slot 0 ends up at the head; the denoted list is therefore the slot addresses
in ascending order. -/
def pool__build_free_list (buffer slot_size slot_count : Nat) : List Nat :=
  (List.range slot_count).map (fun i => buffer + i * slot_size)

/-- pool_init: effective slot size is the caller size raised to pointer
width and rounded to POOL_ALIGN; the base is aligned up (pool__align_ptr of
the source is pool__align_up on the address); the compile-time power-of-two
check on POOL_ALIGN passes for the default value 8. -/
def pool_init (buffer size slot_size : Nat) : Nat × Option pool_t :=
  if buffer = 0 then (POOL_ERR_NULL_BUFFER, none)
  else if slot_size = 0 then (POOL_ERR_INVALID_SLOT_SIZE, none)
  else
    let effective_slot_size := pool__align_up (max slot_size 8) POOL_ALIGN
    let aligned_start := pool__align_up buffer POOL_ALIGN
    let alignment_overhead := aligned_start - buffer
    if size ≤ alignment_overhead then (POOL_ERR_BUFFER_TOO_SMALL, none)
    else
      let usable_size := size - alignment_overhead
      let slot_count := usable_size / effective_slot_size
      if slot_count = 0 then (POOL_ERR_BUFFER_TOO_SMALL, none)
      else
        (POOL_OK, some {
          buffer := aligned_start
          buffer_end := aligned_start + slot_count * effective_slot_size
          free_list := pool__build_free_list aligned_start effective_slot_size slot_count
          slot_size := effective_slot_size
          slot_count := slot_count
          free_count := slot_count })

/-- pool_alloc: pop the head of the free list; null when exhausted. -/
def pool_alloc (p : pool_t) : Option Nat × pool_t :=
  match p.free_list with
  | [] => (none, p)
  | slot :: rest =>
    (some slot, { p with free_list := rest, free_count := p.free_count - 1 })

/-- pool_owns: ptr lies inside [buffer, buffer_end) and its offset from the
base is an exact multiple of the effective slot size. -/
def pool_owns (p : pool_t) (ptr : Nat) : Bool :=
  if ptr = 0 then false
  else if ptr < p.buffer ∨ p.buffer_end ≤ ptr then false
  else (ptr - p.buffer) % p.slot_size == 0

/-- pool_free (release): validate ownership, then push the slot onto the
head of the free list. -/
def pool_free (p : pool_t) (ptr : Nat) : Nat × pool_t :=
  if ptr = 0 then (POOL_ERR_NULL_PTR, p)
  else if pool_owns p ptr = false then (POOL_ERR_INVALID_PTR, p)
  else
    (POOL_OK, { p with free_list := ptr :: p.free_list,
                       free_count := p.free_count + 1 })

/-- Iterate pool_alloc n times, keeping only the state. -/
def pool_alloc_n : pool_t → Nat → pool_t
  | p, 0 => p
  | p, Nat.succ k => pool_alloc_n (pool_alloc p).2 k

/-- Well-formedness of a pool state under the usage discipline of the
source (no double frees): the free list holds pairwise distinct slot start
addresses of the pool.  pool_init establishes this and pool_alloc together
with correctly used pool_free preserve it. -/
def pool_wf (p : pool_t) : Prop :=
  0 < p.slot_size ∧ p.free_list.Nodup ∧
  p.buffer_end = p.buffer + p.slot_count * p.slot_size ∧
  ∀ q ∈ p.free_list, q ∈ pool__build_free_list p.buffer p.slot_size p.slot_count

/-! ## Slab (slab.h, release mode)

Each size class is a pool over its own sub-region; as with the pool, the
intrusive free list of a class is replaced by the list of slot addresses it
denotes.  The fixed array classes[SLAB_MAX_CLASSES] with its count becomes
the list of the class_count live classes; the magic sentinel becomes the
Boolean field initialized, and slab_init models initialization of a zeroed
descriptor (one whose sentinel is not set). -/

def SLAB_MAX_CLASSES : Nat := 16
def SLAB_ALIGNMENT : Nat := 8
/-- SLAB_MIN_SLOT_SIZE = max(sizeof(void *), SLAB_ALIGNMENT). -/
def SLAB_MIN_SLOT_SIZE : Nat := 8

def SLAB_OK : Int := 0
def SLAB_ERR_NULL_PARAM : Int := -1
def SLAB_ERR_ZERO_SIZE : Int := -2
def SLAB_ERR_TOO_MANY : Int := -3
def SLAB_ERR_BUFFER_SMALL : Int := -4
def SLAB_ERR_INVALID_SIZE : Int := -5
def SLAB_ERR_ALREADY_INIT : Int := -6

/-- SLAB_ALIGN_UP(x, align): mask idiom, written as round-down division for
the power-of-two SLAB_ALIGNMENT; the operands stay far below SIZE_MAX on
the claimed paths. -/
def SLAB_ALIGN_UP (x align : Nat) : Nat :=
  (x + align - 1) / align * align

/-- struct slab_class (release fields; free_list as the denoted list). -/
structure slab_class_t where
  slot_size : Nat
  free_list : List Nat
  region_start : Nat
  region_end : Nat
  slot_count : Nat
  free_count : Nat
deriving DecidableEq, Repr

/-- struct slab (release fields; the live prefix of classes[]). -/
structure slab_t where
  buffer : Nat
  aligned_start : Nat
  capacity : Nat
  usable_capacity : Nat
  classes : List slab_class_t
  initialized : Bool
deriving DecidableEq, Repr

/-- Adjacent-duplicate scan that slab_init runs over the sorted sizes. -/
def slab__has_adjacent_dup : List Nat → Bool
  | [] => false
  | [_] => false
  | x :: y :: rest => x == y || slab__has_adjacent_dup (y :: rest)

/-- One iteration of the class set-up loop of slab_init: effective slot
size, slot count, region bounds and the free list built by
slab__build_free_list (slot 0 first). -/
def slab__build_class (region_start sz region_size : Nat) : slab_class_t :=
  let aligned_slot_size := max (SLAB_ALIGN_UP sz SLAB_ALIGNMENT) SLAB_MIN_SLOT_SIZE
  let slots := region_size / aligned_slot_size
  { slot_size := aligned_slot_size
    free_list := (List.range slots).map (fun i => region_start + i * aligned_slot_size)
    region_start := region_start
    region_end := region_start + slots * aligned_slot_size
    slot_count := slots
    free_count := slots }

/-- The class set-up loop of slab_init, advancing region_ptr by region_size
per class. -/
def slab__build_classes (region_ptr region_size : Nat) :
    List Nat → List slab_class_t
  | [] => []
  | sz :: rest =>
    slab__build_class region_ptr sz region_size ::
      slab__build_classes (region_ptr + region_size) region_size rest

/-- slab_init on a zeroed (not yet initialized) descriptor.  The insertion
sort over the copied sizes is the same stable ascending sort as the source
loop; the slots == 0 abort inside the loop is the any-scan after building,
with the same error code. -/
def slab_init (buffer size : Nat) (sizes : List Nat) : Int × Option slab_t :=
  if buffer = 0 then (SLAB_ERR_NULL_PARAM, none)
  else if size = 0 ∨ sizes.length = 0 then (SLAB_ERR_ZERO_SIZE, none)
  else if SLAB_MAX_CLASSES < sizes.length then (SLAB_ERR_TOO_MANY, none)
  else if sizes.any (fun x => x == 0) then (SLAB_ERR_INVALID_SIZE, none)
  else
    let sorted_sizes := List.insertionSort (fun a b => a ≤ b) sizes
    if slab__has_adjacent_dup sorted_sizes then (SLAB_ERR_INVALID_SIZE, none)
    else
      let aligned_start := SLAB_ALIGN_UP buffer SLAB_ALIGNMENT
      let alignment_loss := aligned_start - buffer
      if size ≤ alignment_loss then (SLAB_ERR_BUFFER_SMALL, none)
      else
        let usable := size - alignment_loss
        let region_size := usable / sizes.length / SLAB_ALIGNMENT * SLAB_ALIGNMENT
        if region_size < SLAB_ALIGNMENT then (SLAB_ERR_BUFFER_SMALL, none)
        else
          let classes := slab__build_classes aligned_start region_size sorted_sizes
          if classes.any (fun c => c.slot_count == 0) then (SLAB_ERR_BUFFER_SMALL, none)
          else
            (SLAB_OK, some {
              buffer := buffer
              aligned_start := aligned_start
              capacity := size
              usable_capacity := usable
              classes := classes
              initialized := true })

/-- slab__find_class_for_size: linear scan for the first class with
slot_size >= size; the (size_t)-1 failure value becomes none. -/
def slab__find_class_for_size : List slab_class_t → Nat → Option Nat
  | [], _ => none
  | c :: cs, size =>
    if size ≤ c.slot_size then some 0
    else (slab__find_class_for_size cs size).map (· + 1)

/-- slab__find_class_for_ptr: linear scan for the first class whose
sub-region contains ptr. -/
def slab__find_class_for_ptr : List slab_class_t → Nat → Option Nat
  | [], _ => none
  | c :: cs, p =>
    if c.region_start ≤ p ∧ p < c.region_end then some 0
    else (slab__find_class_for_ptr cs p).map (· + 1)

/-- classes[i].slot_size with the out-of-range reads that the source never
performs mapped to 0. -/
def slab__class_slot_size (classes : List slab_class_t) (i : Nat) : Nat :=
  match classes[i]? with
  | some c => c.slot_size
  | none => 0

/-- slab_alloc: dispatch to the first sufficient class and pop its free
list; null on an uninitialized slab, a zero size, no sufficient class, or
an exhausted class. -/
def slab_alloc (s : slab_t) (size : Nat) : Option Nat × slab_t :=
  if s.initialized = false ∨ size = 0 then (none, s)
  else
    match slab__find_class_for_size s.classes size with
    | none => (none, s)
    | some i =>
      match s.classes[i]? with
      | none => (none, s)
      | some cls =>
        match cls.free_list with
        | [] => (none, s)
        | node :: rest =>
          let cls1 : slab_class_t :=
            { cls with free_list := rest, free_count := cls.free_count - 1 }
          (some node, { s with classes := s.classes.set i cls1 })

/-- slab_usable_size: the slot size of the class whose sub-region contains
ptr; 0 for null, foreign pointers or an uninitialized slab. -/
def slab_usable_size (s : slab_t) (ptr : Nat) : Nat :=
  if s.initialized = false ∨ ptr = 0 then 0
  else
    match slab__find_class_for_ptr s.classes ptr with
    | none => 0
    | some i => slab__class_slot_size s.classes i

/-- slab_max_alloc: slot size of the last (largest) class. -/
def slab_max_alloc (s : slab_t) : Nat :=
  if s.initialized = false ∨ s.classes.length = 0 then 0
  else slab__class_slot_size s.classes (s.classes.length - 1)

/-- Well-formedness of a slab state: classes are ordered by slot size, their
sub-regions are ordered and disjoint, and every free-list entry is an
address strictly inside its own sub-region.  slab_init establishes this. -/
def slab_wf (s : slab_t) : Prop :=
  s.classes.Pairwise (fun a b => a.slot_size ≤ b.slot_size) ∧
  s.classes.Pairwise (fun a b => a.region_end ≤ b.region_start) ∧
  ∀ c ∈ s.classes, 0 < c.region_start ∧ 0 < c.slot_size ∧
    ∀ q ∈ c.free_list, c.region_start ≤ q ∧ q < c.region_end

/-! ## Arithmetic helpers for the shared align-up idiom -/

theorem div_mul_align_ge (x a : Nat) (ha : 0 < a) : x ≤ (x + a - 1) / a * a := by
  have h1 := Nat.div_add_mod (x + a - 1) a
  have h2 : (x + a - 1) % a < a := Nat.mod_lt _ ha
  have h3 : a * ((x + a - 1) / a) = (x + a - 1) / a * a := Nat.mul_comm _ _
  omega

theorem div_mul_align_le (x a : Nat) : (x + a - 1) / a * a ≤ x + a - 1 :=
  Nat.div_mul_le_self _ _

theorem arena_align_up_mod (x al : Nat) : arena__align_up x al % al = 0 :=
  Nat.mul_mod_left _ _

theorem stack_align_addr_mod (x al : Nat) : stack__align_addr x al % al = 0 :=
  Nat.mul_mod_left _ _

theorem arena_align_up_of_no_wrap (x al : Nat) (h : x + al - 1 < size_t_mod) :
    arena__align_up x al = (x + al - 1) / al * al := by
  unfold arena__align_up
  rw [Nat.mod_eq_of_lt h]

theorem stack_align_addr_of_no_wrap (x al : Nat) (h : x + al - 1 < size_t_mod) :
    stack__align_addr x al = (x + al - 1) / al * al := by
  unfold stack__align_addr
  rw [Nat.mod_eq_of_lt h]

theorem stack_align_addr_of_wrap (x al : Nat) (hx : 0 < x) (hxlt : x < size_t_mod)
    (hallt : al < size_t_mod) (h : size_t_mod ≤ x + al - 1) :
    stack__align_addr x al = 0 := by
  unfold stack__align_addr
  have hm : (x + al - 1) % size_t_mod = x + al - 1 - size_t_mod := by
    rw [Nat.mod_eq_sub_mod h]
    exact Nat.mod_eq_of_lt (by omega)
  rw [hm]
  have hlt : x + al - 1 - size_t_mod < al := by omega
  rw [Nat.div_eq_of_lt hlt, Nat.zero_mul]

/-! ## Arena lemmas -/

theorem arena_alloc_none_eq (a : arena_t) (sz al : Nat)
    (h : (arena__alloc a sz al).1 = none) : (arena__alloc a sz al).2 = a := by
  unfold arena__alloc at h ⊢
  split_ifs at h ⊢ with h1 h2 h3
  · rfl
  · rfl
  · rcases hm : arena__calc_aligned_offset a.offset al sz a.capacity with _ | ⟨aligned, pad⟩
    · rfl
    · rw [hm] at h
      exact Option.noConfusion h

/-- Every fact about a successful nonzero-size arena allocation that the
claims need. -/
theorem arena_alloc_success (a : arena_t) (sz al p : Nat) (a' : arena_t)
    (hsz : 0 < sz) (h : arena__alloc a sz al = (some p, a')) :
    a.buffer + a.offset ≤ p ∧ (p - a.buffer) % al = 0 ∧ a.buffer ≤ p ∧
    a'.offset = (p - a.buffer) + sz ∧ a'.buffer = a.buffer ∧
    a'.capacity = a.capacity ∧ a'.initialized = a.initialized ∧
    arena__is_power_of_two al = true := by
  unfold arena__alloc at h
  split_ifs at h with h1 h2 h3
  · rw [Prod.mk.injEq] at h
    exact Option.noConfusion h.1
  · rw [Prod.mk.injEq] at h
    exact Option.noConfusion h.1
  · omega
  · rcases hm : arena__calc_aligned_offset a.offset al sz a.capacity with _ | ⟨aligned, pad⟩ <;>
      rw [hm] at h
    · rw [Prod.mk.injEq] at h
      exact Option.noConfusion h.1
    · rw [Prod.mk.injEq] at h
      obtain ⟨hp, ha'⟩ := h
      rw [Option.some.injEq] at hp
      simp only [arena__calc_aligned_offset] at hm
      split_ifs at hm with g1 g2 g3
      rw [Option.some.injEq, Prod.mk.injEq] at hm
      obtain ⟨haligned, _⟩ := hm
      have hoff : a'.offset = aligned + sz := by rw [← ha']
      have hbuf : a'.buffer = a.buffer := by rw [← ha']
      have hcap : a'.capacity = a.capacity := by rw [← ha']
      have hini : a'.initialized = a.initialized := by rw [← ha']
      have hmod := arena_align_up_mod a.offset al
      have hpow : arena__is_power_of_two al = true := by
        revert h2
        cases arena__is_power_of_two al <;> simp
      have hpb : p - a.buffer = arena__align_up a.offset al := by omega
      refine ⟨by omega, by rw [hpb]; exact hmod, by omega, by omega, hbuf, hcap, hini, hpow⟩

/-- A single arena allocation, successful or not, never moves the watermark
backward and never touches the buffer, the capacity or the initialized
flag. -/
theorem arena_alloc_state (a : arena_t) (sz al : Nat) :
    (arena__alloc a sz al).2.buffer = a.buffer ∧
    (arena__alloc a sz al).2.capacity = a.capacity ∧
    (arena__alloc a sz al).2.initialized = a.initialized ∧
    a.offset ≤ (arena__alloc a sz al).2.offset := by
  rcases hr : arena__alloc a sz al with ⟨r, a'⟩
  rcases r with _ | p
  · have h2 : (arena__alloc a sz al).2 = a :=
      arena_alloc_none_eq a sz al (by rw [hr])
    rw [hr] at h2
    have h3 : a' = a := h2
    subst h3
    exact ⟨rfl, rfl, rfl, le_refl _⟩
  · rcases Nat.eq_zero_or_pos sz with hz | hz
    · subst hz
      unfold arena__alloc at hr
      split_ifs at hr with h1 h2 h3
      · rw [Prod.mk.injEq] at hr
        exact Option.noConfusion hr.1
      · rw [Prod.mk.injEq] at hr
        exact Option.noConfusion hr.1
      · rw [Prod.mk.injEq] at hr
        have h4 : a = a' := hr.2
        subst h4
        exact ⟨rfl, rfl, rfl, le_refl _⟩
      · exact absurd rfl h3
    · obtain ⟨hle, _, _, hoff, hbuf, hcap, hini, _⟩ :=
        arena_alloc_success a sz al p a' hz hr
      refine ⟨hbuf, hcap, hini, ?_⟩
      show a.offset ≤ a'.offset
      omega

/-- arena_run preserves buffer, capacity and the initialized flag and is
monotone on the watermark. -/
theorem arena_run_state (reqs : List (Nat × Nat)) : ∀ a : arena_t,
    (arena_run a reqs).buffer = a.buffer ∧
    (arena_run a reqs).capacity = a.capacity ∧
    (arena_run a reqs).initialized = a.initialized ∧
    a.offset ≤ (arena_run a reqs).offset := by
  induction reqs with
  | nil => intro a; exact ⟨rfl, rfl, rfl, le_refl _⟩
  | cons r rest ih =>
    intro a
    rcases r with ⟨sz, al⟩
    obtain ⟨hb, hc, hi, ho⟩ := arena_alloc_state a sz al
    obtain ⟨hb2, hc2, hi2, ho2⟩ := ih (arena__alloc a sz al).2
    exact ⟨by rw [arena_run, hb2, hb], by rw [arena_run, hc2, hc],
           by rw [arena_run, hi2, hi], by rw [arena_run]; omega⟩

/-- Helper for the zero-size contract: on an initialized arena a zero-size
allocation succeeds with the current watermark pointer and an unchanged
state. -/
theorem arena_alloc_zero_eq (a : arena_t) (hinit : a.initialized = true) :
    arena__alloc a 0 ARENA_DEFAULT_ALIGN = (some (a.buffer + a.offset), a) := by
  unfold arena__alloc
  rw [hinit]
  have hp : arena__is_power_of_two ARENA_DEFAULT_ALIGN = true := by decide
  rw [hp]
  simp

/-- Claim C7.  On an initialized arena, arena_alloc with size 0 (and the
default alignment, as the arena_alloc macro passes it) returns the pointer
base + offset, the current watermark, leaving every component of the arena
state unchanged; consequently a second zero-size allocation with no
intervening nonzero allocation returns the same pointer. -/
theorem arena_zero_size_alloc (a : arena_t) (hinit : a.initialized = true) :
    arena__alloc a 0 ARENA_DEFAULT_ALIGN = (some (a.buffer + a.offset), a) ∧
    (arena__alloc (arena__alloc a 0 ARENA_DEFAULT_ALIGN).2 0 ARENA_DEFAULT_ALIGN).1 =
      some (a.buffer + a.offset) := by
  have h1 := arena_alloc_zero_eq a hinit
  refine ⟨h1, ?_⟩
  rw [h1]
  show (arena__alloc a 0 ARENA_DEFAULT_ALIGN).1 = some (a.buffer + a.offset)
  rw [h1]

/-- Witness for arena_zero_size_alloc at a concrete arena. -/
theorem arena_zero_size_alloc_witness :
    (arena_t.mk 1000 64 24 true).initialized = true ∧
    (arena__alloc (arena_t.mk 1000 64 24 true) 0 ARENA_DEFAULT_ALIGN =
        (some 1024, arena_t.mk 1000 64 24 true) ∧
      (arena__alloc (arena__alloc (arena_t.mk 1000 64 24 true) 0 ARENA_DEFAULT_ALIGN).2 0
          ARENA_DEFAULT_ALIGN).1 = some 1024) :=
  ⟨rfl, arena_zero_size_alloc (arena_t.mk 1000 64 24 true) rfl⟩

/-- Counterexample to claim C2 as stated: the arena aligns the offset, not
the address.  On an initialized arena over the caller-supplied buffer at
address 1 with capacity 64, arena_alloc_aligned with size 8 and alignment 8
succeeds and returns the pointer at address 1, which is not a multiple of
the requested alignment 8. -/
theorem arena_alignment_claim_counterexample :
    arena__alloc (arena_t.mk 1 64 0 true) 8 8 =
      (some 1, arena_t.mk 1 64 8 true) ∧ 1 % 8 ≠ 0 := by
  constructor
  · decide
  · decide

/-! ## Stack lemmas -/

theorem stack_eff_align_ge (alignment : Nat) :
    STACK_MIN_ALIGNMENT ≤ stack__eff_align alignment := by
  unfold stack__eff_align
  split <;> omega

theorem stack_alloc_none_eq (s : stack_t) (sz al : Nat)
    (h : (stack_alloc_aligned s sz al).1 = none) :
    (stack_alloc_aligned s sz al).2 = s := by
  simp only [stack_alloc_aligned] at h ⊢
  split_ifs at h ⊢ <;> rfl

/-- Every fact about a successful stack allocation that the claims need.
The bound hypotheses express that the request and the backing region live
inside the size_t address space, which on the target is guaranteed by the C
type system. -/
theorem stack_alloc_success (s : stack_t) (size alignment p : Nat) (s' : stack_t)
    (hbuf : 0 < s.buffer)
    (hcap : s.buffer + s.capacity + STACK_HEADER_SIZE < size_t_mod)
    (hoff : s.offset ≤ s.capacity)
    (hsize : size < size_t_mod)
    (halign : stack__eff_align alignment < size_t_mod)
    (h : stack_alloc_aligned s size alignment = (some p, s')) :
    0 < size ∧
    s.buffer + s.offset + STACK_HEADER_SIZE ≤ p ∧
    p % stack__eff_align alignment = 0 ∧
    p + size ≤ s.buffer + s.capacity ∧
    s'.offset = p + size - s.buffer ∧
    s.offset < s'.offset ∧ s'.offset ≤ s.capacity ∧
    s'.buffer = s.buffer ∧ s'.capacity = s.capacity ∧
    ∀ x, s'.mem x = if x = p - STACK_HEADER_SIZE then s.offset else s.mem x := by
  have hH : STACK_HEADER_SIZE = 8 := rfl
  by_cases hsz : size = 0
  · rw [hsz] at h
    simp only [stack_alloc_aligned, if_pos rfl] at h
    rw [Prod.mk.injEq] at h
    exact Option.noConfusion h.1
  · simp only [stack_alloc_aligned, if_neg hsz] at h
    set a := stack__eff_align alignment with ha
    have ha8 : STACK_MIN_ALIGNMENT ≤ a := stack_eff_align_ge alignment
    have hA : STACK_MIN_ALIGNMENT = 8 := rfl
    set v := s.buffer + s.offset + STACK_HEADER_SIZE with hv
    have hvlt : v < size_t_mod := by omega
    by_cases hwrap : v + a - 1 < size_t_mod
    · -- the aligned user address does not wrap
      have hal : stack__align_addr v a = (v + a - 1) / a * a :=
        stack_align_addr_of_no_wrap v a hwrap
      set w := (v + a - 1) / a * a with hw
      have hwge : v ≤ w := div_mul_align_ge v a (by omega)
      have hwle : w ≤ v + a - 1 := div_mul_align_le v a
      have hwmod : w % a = 0 := Nat.mul_mod_left _ _
      have huo : (stack__align_addr v a + size_t_mod - s.buffer) % size_t_mod
          = w - s.buffer := by
        rw [hal]
        have h1 : w + size_t_mod - s.buffer = (w - s.buffer) + size_t_mod := by omega
        rw [h1, Nat.add_mod_right]
        exact Nat.mod_eq_of_lt (by omega)
      rw [huo] at h
      set u := w - s.buffer with hu
      by_cases hov : u + size < size_t_mod
      · rw [Nat.mod_eq_of_lt hov] at h
        split_ifs at h with hc
        · rw [Prod.mk.injEq] at h
          exact Option.noConfusion h.1
        · push_neg at hc
          rw [Prod.mk.injEq, Option.some.injEq] at h
          obtain ⟨hp, hs'⟩ := h
          have hpval : p = s.buffer + u := hp.symm
          have hmoff : s'.offset = u + size := by rw [← hs']
          have hmbuf : s'.buffer = s.buffer := by rw [← hs']
          have hmcap : s'.capacity = s.capacity := by rw [← hs']
          have hmmem : ∀ x, s'.mem x =
              if x = p - STACK_HEADER_SIZE then s.offset else s.mem x := by
            intro x
            rw [← hs']
            show (if x = stack__get_header_addr (s.buffer + u) then s.offset
                  else s.mem x) = _
            rw [hpval]
            rfl
          have hpmod : p % a = 0 := by
            have : p = w := by omega
            rw [this]
            exact hwmod
          refine ⟨by omega, by omega, hpmod, by omega, by omega, by omega,
                  by omega, hmbuf, hmcap, hmmem⟩
      · -- the end offset computation wraps; the source detects this and
        -- fails, contradicting success
        have hend : (u + size) % size_t_mod = u + size - size_t_mod := by
          rw [Nat.mod_eq_sub_mod (by omega)]
          exact Nat.mod_eq_of_lt (by omega)
        rw [hend] at h
        rw [if_pos (by left; omega)] at h
        rw [Prod.mk.injEq] at h
        exact Option.noConfusion h.1
    · -- the aligned user address wraps: the mask yields 0, the recovered
      -- offset is huge and the capacity check fails, contradicting success
      have hal : stack__align_addr v a = 0 :=
        stack_align_addr_of_wrap v a (by omega) hvlt (by omega) (by omega)
      have huo : (stack__align_addr v a + size_t_mod - s.buffer) % size_t_mod
          = size_t_mod - s.buffer := by
        rw [hal, Nat.zero_add]
        exact Nat.mod_eq_of_lt (by omega)
      rw [huo] at h
      set u := size_t_mod - s.buffer with hu
      by_cases hov : u + size < size_t_mod
      · rw [Nat.mod_eq_of_lt hov] at h
        rw [if_pos (by right; omega)] at h
        rw [Prod.mk.injEq] at h
        exact Option.noConfusion h.1
      · have hend : (u + size) % size_t_mod = u + size - size_t_mod := by
          rw [Nat.mod_eq_sub_mod (by omega)]
          exact Nat.mod_eq_of_lt (by omega)
        rw [hend] at h
        rw [if_pos (by left; omega)] at h
        rw [Prod.mk.injEq] at h
        exact Option.noConfusion h.1

/-- stack_free only moves the watermark: buffer, capacity and memory are
untouched. -/
theorem stack_free_fields (s : stack_t) (ptr : Nat) :
    (stack_free s ptr).buffer = s.buffer ∧
    (stack_free s ptr).capacity = s.capacity ∧
    (stack_free s ptr).mem = s.mem := by
  unfold stack_free
  split <;> exact ⟨rfl, rfl, rfl⟩

theorem stack_free_foldl_fields (ps : List Nat) : ∀ s : stack_t,
    (List.foldl stack_free s ps).buffer = s.buffer ∧
    (List.foldl stack_free s ps).capacity = s.capacity ∧
    (List.foldl stack_free s ps).mem = s.mem := by
  induction ps with
  | nil => intro s; exact ⟨rfl, rfl, rfl⟩
  | cons q qs ih =>
    intro s
    obtain ⟨h1, h2, h3⟩ := stack_free_fields s q
    obtain ⟨g1, g2, g3⟩ := ih (stack_free s q)
    rw [List.foldl_cons]
    exact ⟨by rw [g1, h1], by rw [g2, h2], by rw [g3, h3]⟩

/-- A single stack allocation, successful or not, keeps buffer and capacity,
never moves the watermark backward and keeps it within capacity. -/
theorem stack_alloc_step (s : stack_t) (sz al : Nat)
    (hbuf : 0 < s.buffer)
    (hcap : s.buffer + s.capacity + STACK_HEADER_SIZE < size_t_mod)
    (hoff : s.offset ≤ s.capacity)
    (hsize : sz < size_t_mod)
    (halign : stack__eff_align al < size_t_mod) :
    (stack_alloc_aligned s sz al).2.buffer = s.buffer ∧
    (stack_alloc_aligned s sz al).2.capacity = s.capacity ∧
    s.offset ≤ (stack_alloc_aligned s sz al).2.offset ∧
    (stack_alloc_aligned s sz al).2.offset ≤ s.capacity := by
  rcases hr : stack_alloc_aligned s sz al with ⟨r, s1⟩
  rcases r with _ | p
  · have h2 : (stack_alloc_aligned s sz al).2 = s :=
      stack_alloc_none_eq s sz al (by rw [hr])
    rw [hr] at h2
    have h3 : s1 = s := h2
    subst h3
    exact ⟨rfl, rfl, le_refl _, hoff⟩
  · obtain ⟨_, _, _, _, _, hlt, hle, hb, hc, _⟩ :=
      stack_alloc_success s sz al p s1 hbuf hcap hoff hsize halign hr
    exact ⟨hb, hc, le_of_lt hlt, hle⟩

/-- stack_run preserves buffer and capacity, is monotone on the watermark
and keeps it within capacity, for any request sequence of machine-sized
requests. -/
theorem stack_run_state (reqs : List (Nat × Nat)) : ∀ s : stack_t,
    0 < s.buffer →
    s.buffer + s.capacity + STACK_HEADER_SIZE < size_t_mod →
    s.offset ≤ s.capacity →
    (∀ r ∈ reqs, r.1 < size_t_mod ∧ stack__eff_align r.2 < size_t_mod) →
    (stack_run s reqs).buffer = s.buffer ∧
    (stack_run s reqs).capacity = s.capacity ∧
    s.offset ≤ (stack_run s reqs).offset ∧
    (stack_run s reqs).offset ≤ s.capacity := by
  induction reqs with
  | nil => intro s _ _ hoff _; exact ⟨rfl, rfl, le_refl _, hoff⟩
  | cons r rest ih =>
    intro s hbuf hcap hoff hreqs
    rcases r with ⟨sz, al⟩
    obtain ⟨hsz, hal⟩ := hreqs (sz, al) (List.mem_cons_self _ _)
    obtain ⟨h1, h2, h3, h4⟩ := stack_alloc_step s sz al hbuf hcap hoff hsz hal
    obtain ⟨g1, g2, g3, g4⟩ := ih (stack_alloc_aligned s sz al).2
      (by omega) (by rw [h1, h2]; exact hcap) (by rw [h2]; exact h4)
      (fun q hq => hreqs q (List.mem_cons_of_mem _ hq))
    rw [stack_run]
    refine ⟨by rw [g1, h1], by rw [g2, h2], by omega, ?_⟩
    rw [← h2]
    exact g4

/-- The central LIFO lemma: a successful allocation sequence leaves all
memory below the starting watermark intact, and folding stack_free over the
returned pointers in reverse order restores the starting watermark. -/
theorem stack_alloc_list_spec (reqs : List (Nat × Nat)) :
    ∀ (s : stack_t) (ps : List Nat) (s' : stack_t),
    0 < s.buffer →
    s.buffer + s.capacity + STACK_HEADER_SIZE < size_t_mod →
    s.offset ≤ s.capacity →
    (∀ r ∈ reqs, r.1 < size_t_mod ∧ stack__eff_align r.2 < size_t_mod) →
    stack_alloc_list s reqs = some (ps, s') →
    s'.buffer = s.buffer ∧ s'.capacity = s.capacity ∧
    s.offset ≤ s'.offset ∧ s'.offset ≤ s.capacity ∧
    (∀ x, x < s.buffer + s.offset → s'.mem x = s.mem x) ∧
    (List.foldl stack_free s' ps.reverse).offset = s.offset := by
  induction reqs with
  | nil =>
    intro s ps s' _ _ hoff _ h
    rw [stack_alloc_list, Option.some.injEq, Prod.mk.injEq] at h
    obtain ⟨hps, hs⟩ := h
    subst hps
    subst hs
    exact ⟨rfl, rfl, le_refl _, hoff, fun x _ => rfl, rfl⟩
  | cons r rest ih =>
    intro s ps s' hbuf hcap hoff hreqs h
    rcases r with ⟨sz, al⟩
    obtain ⟨hszb, halb⟩ := hreqs (sz, al) (List.mem_cons_self _ _)
    rw [stack_alloc_list] at h
    rcases hr : stack_alloc_aligned s sz al with ⟨r0, s1⟩
    rw [hr] at h
    rcases r0 with _ | p
    · exact Option.noConfusion h
    · dsimp only at h
      rcases hrest : stack_alloc_list s1 rest with _ | ⟨ps2, s2⟩
      · rw [hrest] at h
        exact Option.noConfusion h
      · rw [hrest, Option.some.injEq, Prod.mk.injEq] at h
        obtain ⟨hps, hs⟩ := h
        subst hps
        subst hs
        obtain ⟨hszpos, hple, hpmod, hpcap, hoff1, holt, hole, hb1, hc1, hmem1⟩ :=
          stack_alloc_success s sz al p s1 hbuf hcap hoff hszb halb hr
        obtain ⟨hb2, hc2, ho2, ho2c, hmem2, hfold2⟩ :=
          ih s1 ps2 s2 (by omega)
            (by rw [hb1, hc1]; exact hcap) (by rw [hc1]; exact hole)
            (fun q hq => hreqs q (List.mem_cons_of_mem _ hq)) hrest
        have hH : STACK_HEADER_SIZE = 8 := rfl
        refine ⟨by rw [hb2, hb1], by rw [hc2, hc1], by omega, by omega, ?_, ?_⟩
        · intro x hx
          have hx1 : x < s1.buffer + s1.offset := by
            rw [hb1]
            omega
          rw [hmem2 x hx1, hmem1 x]
          rw [if_neg (by omega)]
        · rw [List.reverse_cons, List.foldl_append, List.foldl_cons, List.foldl_nil]
          set t := List.foldl stack_free s2 ps2.reverse with ht
          obtain ⟨_, _, htm⟩ := stack_free_foldl_fields ps2.reverse s2
          have hp0 : p ≠ 0 := by omega
          show (stack_free t p).offset = s.offset
          unfold stack_free
          rw [if_neg hp0]
          show t.mem (stack__get_header_addr p) = s.offset
          have hhead : stack__get_header_addr p = p - STACK_HEADER_SIZE := rfl
          rw [hhead, htm]
          have hx1 : p - STACK_HEADER_SIZE < s1.buffer + s1.offset := by
            rw [hb1]
            omega
          rw [hmem2 _ hx1, hmem1 _, if_pos rfl]

/-- Claim C8.  Starting from a freshly initialized stack, any sequence of
successful allocations followed by stack_free on the returned pointers in
strict reverse order restores the watermark (the used count) to 0.  The
bound hypotheses restrict requests to the size_t domain of the C types, and
the power-of-two condition on the (raised) alignment is the contract that
stack_alloc_aligned asserts. -/
theorem stack_lifo_frees_restore_zero
    (b n : Nat) (m0 : Nat → Nat) (S : stack_t) (reqs : List (Nat × Nat))
    (ps : List Nat) (S' : stack_t)
    (hinit : stack_init b n m0 = some S)
    (hcap : b + n + STACK_HEADER_SIZE < size_t_mod)
    (hreqs : ∀ r ∈ reqs, r.1 < size_t_mod ∧ stack__eff_align r.2 < size_t_mod ∧
      stack__is_power_of_two (stack__eff_align r.2) = true)
    (hrun : stack_alloc_list S reqs = some (ps, S')) :
    (List.foldl stack_free S' ps.reverse).offset = 0 := by
  unfold stack_init at hinit
  split_ifs at hinit with h0
  push_neg at h0
  rw [Option.some.injEq] at hinit
  have hSb : S.buffer = b := by rw [← hinit]
  have hSc : S.capacity = n := by rw [← hinit]
  have hSo : S.offset = 0 := by rw [← hinit]
  obtain ⟨_, _, _, _, _, hfold⟩ :=
    stack_alloc_list_spec reqs S ps S'
      (by omega)
      (by rw [hSb, hSc]; exact hcap)
      (by rw [hSo]; exact Nat.zero_le _)
      (fun r hr => ⟨(hreqs r hr).1, (hreqs r hr).2.1⟩)
      hrun
  rw [hfold, hSo]

/-- Witness for stack_lifo_frees_restore_zero: one 8-byte allocation on a
fresh 64-byte stack at base 8, then freed. -/
theorem stack_lifo_frees_restore_zero_witness :
    stack_init 8 64 (fun _ => 0) = some (stack_t.mk 8 64 0 (fun _ => 0)) ∧
    8 + 64 + STACK_HEADER_SIZE < size_t_mod ∧
    (∀ r ∈ [((8 : Nat), (8 : Nat))],
      r.1 < size_t_mod ∧ stack__eff_align r.2 < size_t_mod ∧
      stack__is_power_of_two (stack__eff_align r.2) = true) ∧
    stack_alloc_list (stack_t.mk 8 64 0 (fun _ => 0)) [(8, 8)] =
      some ([16], stack_t.mk 8 64 16 (fun x => if x = 8 then 0 else 0)) ∧
    (List.foldl stack_free
      (stack_t.mk 8 64 16 (fun x => if x = 8 then 0 else 0)) [16].reverse).offset = 0 :=
  ⟨rfl, by decide, by decide, rfl,
    stack_lifo_frees_restore_zero 8 64 (fun _ => 0) (stack_t.mk 8 64 0 (fun _ => 0))
      [(8, 8)] [16] (stack_t.mk 8 64 16 (fun x => if x = 8 then 0 else 0))
      rfl (by decide) (by decide) rfl⟩

/-- Claim C10.  An alignment strictly below the natural alignment of the
header word (sizeof(size_t)) is silently raised to it: for every stack state
and size, stack_alloc_aligned with such an alignment returns exactly the
same result and state as with alignment sizeof(size_t); such calls are never
refused on alignment grounds. -/
theorem stack_small_alignment_raised (st : stack_t) (size a : Nat)
    (_h1 : 0 < a) (h2 : a < STACK_MIN_ALIGNMENT) :
    stack_alloc_aligned st size a = stack_alloc_aligned st size STACK_MIN_ALIGNMENT := by
  have he : stack__eff_align a = stack__eff_align STACK_MIN_ALIGNMENT := by
    unfold stack__eff_align
    rw [if_pos h2, if_neg (by omega)]
  simp only [stack_alloc_aligned, he]

/-- Witness for stack_small_alignment_raised at alignment 3. -/
theorem stack_small_alignment_raised_witness :
    0 < 3 ∧ 3 < STACK_MIN_ALIGNMENT ∧
    stack_alloc_aligned (stack_t.mk 8 64 0 (fun _ => 0)) 16 3 =
      stack_alloc_aligned (stack_t.mk 8 64 0 (fun _ => 0)) 16 STACK_MIN_ALIGNMENT :=
  ⟨by decide, by decide,
    stack_small_alignment_raised (stack_t.mk 8 64 0 (fun _ => 0)) 16 3
      (by decide) (by decide)⟩

/-! ## Pool lemmas -/

theorem pool_alloc_none_eq (p : pool_t) (h : (pool_alloc p).1 = none) :
    (pool_alloc p).2 = p := by
  unfold pool_alloc at h ⊢
  rcases hl : p.free_list with _ | ⟨q, rest⟩
  · rfl
  · rw [hl] at h
    have h' : (some q : Option Nat) = none := h
    exact Option.noConfusion h'

theorem pool_alloc_fields (p : pool_t) :
    (pool_alloc p).2.buffer = p.buffer ∧
    (pool_alloc p).2.buffer_end = p.buffer_end ∧
    (pool_alloc p).2.slot_size = p.slot_size ∧
    (pool_alloc p).2.slot_count = p.slot_count ∧
    (pool_alloc p).2.free_list = p.free_list.tail := by
  unfold pool_alloc
  rcases hl : p.free_list with _ | ⟨q, rest⟩
  · exact ⟨rfl, rfl, rfl, rfl, hl⟩
  · exact ⟨rfl, rfl, rfl, rfl, rfl⟩

theorem pool_free_fields (p : pool_t) (q : Nat) :
    (pool_free p q).2.buffer = p.buffer ∧
    (pool_free p q).2.buffer_end = p.buffer_end ∧
    (pool_free p q).2.slot_size = p.slot_size ∧
    (pool_free p q).2.slot_count = p.slot_count := by
  unfold pool_free
  split_ifs <;> exact ⟨rfl, rfl, rfl, rfl⟩

theorem pool_alloc_n_spec (k : Nat) : ∀ p : pool_t,
    (pool_alloc_n p k).buffer = p.buffer ∧
    (pool_alloc_n p k).buffer_end = p.buffer_end ∧
    (pool_alloc_n p k).slot_size = p.slot_size ∧
    (pool_alloc_n p k).slot_count = p.slot_count ∧
    (pool_alloc_n p k).free_list = p.free_list.drop k := by
  induction k with
  | zero => intro p; exact ⟨rfl, rfl, rfl, rfl, (List.drop_zero _).symm⟩
  | succ k ih =>
    intro p
    obtain ⟨h1, h2, h3, h4, h5⟩ := pool_alloc_fields p
    obtain ⟨g1, g2, g3, g4, g5⟩ := ih (pool_alloc p).2
    rw [pool_alloc_n]
    refine ⟨by rw [g1, h1], by rw [g2, h2], by rw [g3, h3], by rw [g4, h4], ?_⟩
    rw [g5, h5, ← List.drop_one, List.drop_drop, Nat.add_comm]

/-- Claim C9.  Immediately after a successful pool_free (one returning
POOL_OK), the next pool_alloc returns exactly the freed pointer: frees are
pushed onto the head of the free list and allocations pop it. -/
theorem pool_free_then_alloc_returns_ptr (P : pool_t) (ptr : Nat)
    (h : (pool_free P ptr).1 = POOL_OK) :
    (pool_alloc (pool_free P ptr).2).1 = some ptr := by
  unfold pool_free at h ⊢
  split_ifs at h ⊢ with h1 h2
  · have h' : POOL_ERR_NULL_PTR = POOL_OK := h
    exact absurd h' (by decide)
  · have h' : POOL_ERR_INVALID_PTR = POOL_OK := h
    exact absurd h' (by decide)
  · rfl

/-- Witness for pool_free_then_alloc_returns_ptr on a concrete pool. -/
theorem pool_free_then_alloc_returns_ptr_witness :
    (pool_free (pool_t.mk 8 72 [16] 8 8 1) 24).1 = POOL_OK ∧
    (pool_alloc (pool_free (pool_t.mk 8 72 [16] 8 8 1) 24).2).1 = some 24 :=
  ⟨by decide, pool_free_then_alloc_returns_ptr (pool_t.mk 8 72 [16] 8 8 1) 24 (by decide)⟩

/-- Counterexample to claim C5 as stated: pool_owns is purely geometric.  On
the pool freshly initialized from buffer address 8 with 64 bytes and slot
size 8, no pool_alloc has happened (free_count still equals slot_count), yet
pool_owns reports true for the first slot address 8. -/
theorem pool_owns_claim_counterexample :
    pool_init 8 64 8 =
      (POOL_OK, some (pool_t.mk 8 72 [8, 16, 24, 32, 40, 48, 56, 64] 8 8 8)) ∧
    pool_owns (pool_t.mk 8 72 [8, 16, 24, 32, 40, 48, 56, 64] 8 8 8) 8 = true ∧
    (pool_t.mk 8 72 [8, 16, 24, 32, 40, 48, 56, 64] 8 8 8).free_count =
      (pool_t.mk 8 72 [8, 16, 24, 32, 40, 48, 56, 64] 8 8 8).slot_count := by
  refine ⟨by decide, by decide, by decide⟩

/-- Claim C5, amended.  For a pool produced by pool_init, pool_owns is a
purely geometric predicate: it answers true exactly for the slot start
addresses of the pool (the members of the initial free list), independently
of which slots are currently allocated; moreover a pool_alloc or pool_free
never changes the answer of pool_owns.  In particular a pointer that was
never returned by pool_alloc is still reported as owned. -/
theorem pool_owns_geometric (b n ssz : Nat) (P : pool_t) (ptr : Nat)
    (hinit : pool_init b n ssz = (POOL_OK, some P)) :
    (pool_owns P ptr = true ↔
      ptr ∈ pool__build_free_list P.buffer P.slot_size P.slot_count) ∧
    pool_owns (pool_alloc P).2 ptr = pool_owns P ptr ∧
    ∀ q, pool_owns (pool_free P q).2 ptr = pool_owns P ptr := by
  have hPA : POOL_ALIGN = 8 := rfl
  simp only [pool_init] at hinit
  split_ifs at hinit with h1 h2 h3 h4
  · rw [Prod.mk.injEq] at hinit
    exact absurd hinit.1 (by decide)
  · rw [Prod.mk.injEq] at hinit
    exact absurd hinit.1 (by decide)
  · rw [Prod.mk.injEq] at hinit
    exact absurd hinit.1 (by decide)
  · rw [Prod.mk.injEq] at hinit
    exact absurd hinit.1 (by decide)
  · rw [Prod.mk.injEq, Option.some.injEq] at hinit
    obtain ⟨-, hP⟩ := hinit
    set eff := pool__align_up (max ssz 8) POOL_ALIGN with heff
    set astart := pool__align_up b POOL_ALIGN with hastart
    set cnt := (n - (astart - b)) / eff with hcnt
    have hPb : P.buffer = astart := by rw [← hP]
    have hPe : P.buffer_end = astart + cnt * eff := by rw [← hP]
    have hPs : P.slot_size = eff := by rw [← hP]
    have hPc : P.slot_count = cnt := by rw [← hP]
    have heff8 : 8 ≤ eff := by
      rw [heff]
      unfold pool__align_up
      have hg := div_mul_align_ge (max ssz 8) POOL_ALIGN (by rw [hPA]; omega)
      have h8 : (8 : Nat) ≤ max ssz 8 := le_max_right _ _
      omega
    have hast1 : b ≤ astart := by
      rw [hastart]
      unfold pool__align_up
      exact div_mul_align_ge b POOL_ALIGN (by rw [hPA]; omega)
    have hb0 : 0 < b := by omega
    have hslotpos : 0 < P.slot_size := by omega
    have hbpos : 0 < P.buffer := by omega
    refine ⟨⟨?_, ?_⟩, ?_, ?_⟩
    · -- owns implies membership among the slot addresses
      intro hown
      unfold pool_owns at hown
      split_ifs at hown with g1 g2
      rw [beq_iff_eq] at hown
      push_neg at g2
      obtain ⟨hge, hlt⟩ := g2
      unfold pool__build_free_list
      rw [List.mem_map]
      refine ⟨(ptr - P.buffer) / P.slot_size, ?_, ?_⟩
      · rw [List.mem_range, Nat.div_lt_iff_lt_mul hslotpos]
        have hlt2 : ptr < astart + cnt * eff := by rw [← hPe]; exact hlt
        have hme : P.slot_count * P.slot_size = cnt * eff := by rw [hPc, hPs]
        rw [hme]
        omega
      · have hdvd : P.slot_size ∣ (ptr - P.buffer) := Nat.dvd_of_mod_eq_zero hown
        rw [Nat.div_mul_cancel hdvd]
        omega
    · -- membership implies owns
      intro hmem
      unfold pool__build_free_list at hmem
      rw [List.mem_map] at hmem
      obtain ⟨i, hi, hptr⟩ := hmem
      rw [List.mem_range] at hi
      have himul : i * P.slot_size < P.slot_count * P.slot_size :=
        (Nat.mul_lt_mul_right hslotpos).mpr hi
      have hend : P.buffer_end = P.buffer + P.slot_count * P.slot_size := by
        rw [hPe, hPb, hPc, hPs]
      unfold pool_owns
      rw [if_neg (by omega), if_neg (by push_neg; omega)]
      have hsub : ptr - P.buffer = i * P.slot_size := by omega
      rw [hsub, beq_iff_eq]
      exact Nat.mul_mod_left _ _
    · -- pool_alloc does not change pool_owns
      obtain ⟨ab, ae, as, -, -⟩ := pool_alloc_fields P
      unfold pool_owns
      rw [ab, ae, as]
    · -- pool_free does not change pool_owns
      intro q
      obtain ⟨fb, fe, fs, -⟩ := pool_free_fields P q
      unfold pool_owns
      rw [fb, fe, fs]

/-- Witness for pool_owns_geometric on the concrete pool of the
counterexample. -/
theorem pool_owns_geometric_witness :
    pool_init 8 64 8 =
      (POOL_OK, some (pool_t.mk 8 72 [8, 16, 24, 32, 40, 48, 56, 64] 8 8 8)) ∧
    ((pool_owns (pool_t.mk 8 72 [8, 16, 24, 32, 40, 48, 56, 64] 8 8 8) 16 = true ↔
      16 ∈ pool__build_free_list 8 8 8) ∧
     pool_owns (pool_alloc (pool_t.mk 8 72 [8, 16, 24, 32, 40, 48, 56, 64] 8 8 8)).2 16 =
       pool_owns (pool_t.mk 8 72 [8, 16, 24, 32, 40, 48, 56, 64] 8 8 8) 16 ∧
     ∀ q, pool_owns (pool_free (pool_t.mk 8 72 [8, 16, 24, 32, 40, 48, 56, 64] 8 8 8) q).2 16 =
       pool_owns (pool_t.mk 8 72 [8, 16, 24, 32, 40, 48, 56, 64] 8 8 8) 16) :=
  ⟨by decide,
    pool_owns_geometric 8 64 8 (pool_t.mk 8 72 [8, 16, 24, 32, 40, 48, 56, 64] 8 8 8) 16
      (by decide)⟩

/-! ## Slab lemmas -/

theorem getElem?_set_self_of_lt {α : Type} (l : List α) (i : Nat) (b : α)
    (h : i < l.length) : (l.set i b)[i]? = some b := by
  rw [List.getElem?_set_self']
  simp [List.getElem?_eq_getElem h]

theorem mem_of_getElem?_eq {α : Type} (l : List α) (i : Nat) (a : α)
    (h : l[i]? = some a) : a ∈ l := by
  obtain ⟨hi, he⟩ := List.getElem?_eq_some.mp h
  exact he ▸ List.getElem_mem hi

/-- slab__find_class_for_size finds the first class whose slot size is
sufficient: the found class is sufficient and every earlier class is not. -/
theorem slab_find_size_spec : ∀ (cs : List slab_class_t) (n i : Nat),
    slab__find_class_for_size cs n = some i →
    ∃ cls, cs[i]? = some cls ∧ n ≤ cls.slot_size ∧
      ∀ j, j < i → ∀ d, cs[j]? = some d → d.slot_size < n := by
  intro cs
  induction cs with
  | nil => intro n i h; exact Option.noConfusion h
  | cons c cs ih =>
    intro n i h
    rw [slab__find_class_for_size] at h
    split_ifs at h with hc
    · rw [Option.some.injEq] at h
      subst h
      exact ⟨c, List.getElem?_cons_zero, hc, fun j hj d _ => absurd hj (Nat.not_lt_zero j)⟩
    · rcases hf : slab__find_class_for_size cs n with _ | i0
      · rw [hf] at h
        exact Option.noConfusion h
      · rw [hf, Option.map_some', Option.some.injEq] at h
        subst h
        obtain ⟨cls, h1, h2, h3⟩ := ih n i0 hf
        refine ⟨cls, by rw [List.getElem?_cons_succ]; exact h1, h2, ?_⟩
        intro j hj d hd
        rcases j with _ | j0
        · rw [List.getElem?_cons_zero, Option.some.injEq] at hd
          subst hd
          omega
        · rw [List.getElem?_cons_succ] at hd
          exact h3 j0 (by omega) d hd

/-- slab__find_class_for_ptr returns the index of a class containing the
pointer as soon as every earlier sub-region ends at or before it. -/
theorem slab_find_ptr_first : ∀ (cs : List slab_class_t) (i : Nat)
    (cls : slab_class_t) (q : Nat),
    cs[i]? = some cls → cls.region_start ≤ q → q < cls.region_end →
    (∀ j, j < i → ∀ d, cs[j]? = some d → d.region_end ≤ q) →
    slab__find_class_for_ptr cs q = some i := by
  intro cs
  induction cs with
  | nil => intro i cls q h; exact Option.noConfusion h
  | cons c cs ih =>
    intro i cls q hcls h1 h2 hearlier
    rw [slab__find_class_for_ptr]
    rcases i with _ | i0
    · rw [List.getElem?_cons_zero, Option.some.injEq] at hcls
      subst hcls
      rw [if_pos ⟨h1, h2⟩]
    · rw [List.getElem?_cons_succ] at hcls
      have hc0 : c.region_end ≤ q :=
        hearlier 0 (Nat.succ_pos _) c List.getElem?_cons_zero
      rw [if_neg (by rintro ⟨-, hq2⟩; omega)]
      rw [ih i0 cls q hcls h1 h2
        (fun j hj d hd =>
          hearlier (j + 1) (by omega) d (by rw [List.getElem?_cons_succ]; exact hd))]
      rfl

theorem slab_alloc_none_eq (s : slab_t) (n : Nat)
    (h : (slab_alloc s n).1 = none) : (slab_alloc s n).2 = s := by
  unfold slab_alloc at h ⊢
  split_ifs at h ⊢ with h1
  · rfl
  · rcases hf : slab__find_class_for_size s.classes n with _ | i
    · rfl
    · rw [hf] at h
      dsimp only at h ⊢
      rcases hc : s.classes[i]? with _ | cls
      · rfl
      · rw [hc] at h
        dsimp only at h ⊢
        rcases hl : cls.free_list with _ | ⟨q, rest⟩
        · rfl
        · rw [hl] at h
          dsimp only at h
          exact Option.noConfusion h

/-- Shape of a successful slab allocation: the first sufficient class was
found, its free list was nonempty, the returned pointer is its head, and
the new state replaces just that class with the popped version. -/
theorem slab_alloc_success (s : slab_t) (n p : Nat) (s' : slab_t)
    (h : slab_alloc s n = (some p, s')) :
    s.initialized = true ∧ 0 < n ∧
    ∃ i cls rest, slab__find_class_for_size s.classes n = some i ∧
      s.classes[i]? = some cls ∧ cls.free_list = p :: rest ∧
      s'.initialized = s.initialized ∧
      s'.classes = s.classes.set i
        (slab_class_t.mk cls.slot_size rest cls.region_start cls.region_end
          cls.slot_count (cls.free_count - 1)) := by
  unfold slab_alloc at h
  split_ifs at h with h1
  · rw [Prod.mk.injEq] at h
    exact Option.noConfusion h.1
  · push_neg at h1
    obtain ⟨hi, hn⟩ := h1
    rcases hf : slab__find_class_for_size s.classes n with _ | i
    · rw [hf] at h
      dsimp only at h
      rw [Prod.mk.injEq] at h
      exact Option.noConfusion h.1
    · rw [hf] at h
      dsimp only at h
      rcases hc : s.classes[i]? with _ | cls
      · rw [hc] at h
        dsimp only at h
        rw [Prod.mk.injEq] at h
        exact Option.noConfusion h.1
      · rw [hc] at h
        dsimp only at h
        rcases hl : cls.free_list with _ | ⟨q, rest⟩
        · rw [hl] at h
          dsimp only at h
          rw [Prod.mk.injEq] at h
          exact Option.noConfusion h.1
        · rw [hl] at h
          dsimp only at h
          rw [Prod.mk.injEq, Option.some.injEq] at h
          obtain ⟨hq, hs'⟩ := h
          subst hq
          refine ⟨by revert hi; cases s.initialized <;> simp, by omega,
                  i, cls, rest, rfl, hc, hl, by rw [← hs'], by rw [← hs']⟩

/-- Claim C4.  On an initialized well-formed slab with 1 <= n <=
slab_max_alloc: a successful slab_alloc of n bytes returns a pointer whose
slab_usable_size is the smallest class slot size that is at least n (it is
sufficient, and no sufficient class has a smaller slot); and when the first
sufficient class has an empty free list, slab_alloc returns null even if
larger classes still have free slots. -/
theorem slab_alloc_best_fit (s : slab_t) (n p : Nat) (s' : slab_t)
    (i : Nat) (cls : slab_class_t)
    (hwf : slab_wf s) (hinit : s.initialized = true)
    (hn1 : 1 ≤ n) (_hnmax : n ≤ slab_max_alloc s) :
    (slab_alloc s n = (some p, s') →
      n ≤ slab_usable_size s' p ∧
      ∀ c ∈ s.classes, n ≤ c.slot_size → slab_usable_size s' p ≤ c.slot_size) ∧
    (slab__find_class_for_size s.classes n = some i → s.classes[i]? = some cls →
      cls.free_list = [] → (slab_alloc s n).1 = none) := by
  obtain ⟨hpw_slot, hpw_reg, hmemwf⟩ := hwf
  constructor
  · intro hsucc
    obtain ⟨-, -, i0, cls0, rest0, hf, hc, hl, hinit', hcls'⟩ :=
      slab_alloc_success s n p s' hsucc
    have hcin : cls0 ∈ s.classes := mem_of_getElem?_eq _ _ _ hc
    obtain ⟨hrs0, hss0, hfree⟩ := hmemwf cls0 hcin
    have hpin : p ∈ cls0.free_list := by
      rw [hl]
      exact List.mem_cons_self _ _
    obtain ⟨hp1, hp2⟩ := hfree p hpin
    obtain ⟨cls1, hc1, hn_le, hbefore⟩ := slab_find_size_spec s.classes n i0 hf
    rw [hc, Option.some.injEq] at hc1
    subst hc1
    have hi0len : i0 < s.classes.length := (List.getElem?_eq_some.mp hc).1
    have hci0 : s.classes[i0] = cls0 := by
      have h' := List.getElem?_eq_getElem hi0len
      rw [hc] at h'
      injection h' with h''
      exact h''.symm
    have hs'init : s'.initialized = true := by rw [hinit', hinit]
    have hppos : 0 < p := by omega
    have hfp : slab__find_class_for_ptr s'.classes p = some i0 := by
      rw [hcls']
      apply slab_find_ptr_first _ i0
        (slab_class_t.mk cls0.slot_size rest0 cls0.region_start cls0.region_end
          cls0.slot_count (cls0.free_count - 1)) p
      · exact getElem?_set_self_of_lt _ _ _ hi0len
      · exact hp1
      · exact hp2
      · intro j hj d hd
        rw [List.getElem?_set_ne (by omega)] at hd
        obtain ⟨hjlen, hdj⟩ := List.getElem?_eq_some.mp hd
        have hr := List.pairwise_iff_getElem.mp hpw_reg j i0 hjlen hi0len hj
        rw [hdj, hci0] at hr
        omega
    have hcond2 : ¬(s'.initialized = false ∨ p = 0) := by
      rw [hs'init]
      simp
      omega
    have husable : slab_usable_size s' p = cls0.slot_size := by
      unfold slab_usable_size
      rw [if_neg hcond2, hfp]
      dsimp only
      unfold slab__class_slot_size
      rw [hcls', getElem?_set_self_of_lt _ _ _ hi0len]
    constructor
    · rw [husable]
      exact hn_le
    · intro c hcmem hcge
      rw [husable]
      obtain ⟨j, hjlen, hcj⟩ := List.mem_iff_getElem.mp hcmem
      by_cases hji : j < i0
      · have hlt := hbefore j hji (s.classes[j]) (List.getElem?_eq_getElem hjlen)
        rw [hcj] at hlt
        omega
      · push_neg at hji
        rcases Nat.eq_or_lt_of_le hji with he | hlt
        · subst he
          rw [hci0] at hcj
          rw [hcj]
        · have hr := List.pairwise_iff_getElem.mp hpw_slot i0 j hi0len hjlen hlt
          rw [hci0, hcj] at hr
          exact hr
  · intro hfind hcls hempty
    have hcond : ¬(s.initialized = false ∨ n = 0) := by
      rw [hinit]
      simp
      omega
    unfold slab_alloc
    rw [if_neg hcond, hfind]
    dsimp only
    rw [hcls]
    dsimp only
    rw [hempty]

/-- Everything slab_init guarantees about one freshly built class. -/
theorem slab_build_class_spec (rs sz rsize : Nat) :
    (slab__build_class rs sz rsize).region_start = rs ∧
    (slab__build_class rs sz rsize).slot_size =
      max (SLAB_ALIGN_UP sz SLAB_ALIGNMENT) SLAB_MIN_SLOT_SIZE ∧
    0 < (slab__build_class rs sz rsize).slot_size ∧
    (slab__build_class rs sz rsize).region_end ≤ rs + rsize ∧
    ∀ q ∈ (slab__build_class rs sz rsize).free_list,
      (slab__build_class rs sz rsize).region_start ≤ q ∧
      q < (slab__build_class rs sz rsize).region_end := by
  have hmin : SLAB_MIN_SLOT_SIZE = 8 := rfl
  simp only [slab__build_class]
  set aslot := max (SLAB_ALIGN_UP sz SLAB_ALIGNMENT) SLAB_MIN_SLOT_SIZE with haslot
  have haslot8 : 8 ≤ aslot := by
    rw [haslot, hmin]
    exact le_max_right _ _
  refine ⟨trivial, trivial, by omega, ?_, ?_⟩
  · have := Nat.div_mul_le_self rsize aslot
    omega
  · intro q hq
    rw [List.mem_map] at hq
    obtain ⟨j, hj, hq2⟩ := hq
    rw [List.mem_range] at hj
    have hjm : j * aslot < rsize / aslot * aslot :=
      (Nat.mul_lt_mul_right (by omega)).mpr hj
    constructor
    · omega
    · omega

/-- Shape of an arbitrary member of the class list that slab_init builds:
it is one loop iteration at some region pointer at or after the start, for
one of the sorted sizes. -/
theorem slab_build_classes_mem_shape (l : List Nat) : ∀ ptr rsize c,
    c ∈ slab__build_classes ptr rsize l →
    ∃ p0, ∃ z ∈ l, ptr ≤ p0 ∧ c = slab__build_class p0 z rsize := by
  induction l with
  | nil => intro ptr rsize c hc; exact absurd hc (List.not_mem_nil c)
  | cons z rest ih =>
    intro ptr rsize c hc
    rw [slab__build_classes] at hc
    rcases List.mem_cons.mp hc with he | hm
    · exact ⟨ptr, z, List.mem_cons_self _ _, le_refl _, he⟩
    · obtain ⟨p0, z0, hz0, hge, he⟩ := ih (ptr + rsize) rsize c hm
      exact ⟨p0, z0, List.mem_cons_of_mem _ hz0, by omega, he⟩

/-- The effective slot size computation of slab_init is monotone. -/
theorem slab_slot_size_mono (a b : Nat) (h : a ≤ b) :
    max (SLAB_ALIGN_UP a SLAB_ALIGNMENT) SLAB_MIN_SLOT_SIZE ≤
      max (SLAB_ALIGN_UP b SLAB_ALIGNMENT) SLAB_MIN_SLOT_SIZE := by
  have hd : SLAB_ALIGN_UP a SLAB_ALIGNMENT ≤ SLAB_ALIGN_UP b SLAB_ALIGNMENT := by
    unfold SLAB_ALIGN_UP
    exact Nat.mul_le_mul_right _ (Nat.div_le_div_right (by omega))
  exact max_le_max hd (le_refl _)

/-- Ascending input sizes give classes with ascending slot sizes. -/
theorem slab_build_classes_pairwise_slot (l : List Nat) : ∀ ptr rsize,
    l.Sorted (· ≤ ·) →
    (slab__build_classes ptr rsize l).Pairwise (fun a b => a.slot_size ≤ b.slot_size) := by
  induction l with
  | nil => intro ptr rsize _; exact List.Pairwise.nil
  | cons z rest ih =>
    intro ptr rsize hsorted
    rw [slab__build_classes]
    refine List.Pairwise.cons ?_ (ih _ _ hsorted.tail)
    intro c hc
    obtain ⟨p0, z0, hz0, -, he⟩ := slab_build_classes_mem_shape rest _ _ c hc
    have hz : z ≤ z0 := (List.sorted_cons.mp hsorted).1 z0 hz0
    obtain ⟨-, hs1, -, -, -⟩ := slab_build_class_spec ptr z rsize
    obtain ⟨-, hs2, -, -, -⟩ := slab_build_class_spec p0 z0 rsize
    rw [hs1, he, hs2]
    exact slab_slot_size_mono z z0 hz

/-- The sub-regions of the built classes are laid out left to right without
overlap. -/
theorem slab_build_classes_pairwise_region (l : List Nat) : ∀ ptr rsize,
    (slab__build_classes ptr rsize l).Pairwise (fun a b => a.region_end ≤ b.region_start) := by
  induction l with
  | nil => intro ptr rsize; exact List.Pairwise.nil
  | cons z rest ih =>
    intro ptr rsize
    rw [slab__build_classes]
    refine List.Pairwise.cons ?_ (ih _ _)
    intro c hc
    obtain ⟨p0, z0, -, hge, he⟩ := slab_build_classes_mem_shape rest _ _ c hc
    obtain ⟨-, -, -, hend, -⟩ := slab_build_class_spec ptr z rsize
    obtain ⟨hstart, -, -, -, -⟩ := slab_build_class_spec p0 z0 rsize
    rw [he, hstart]
    omega

/-- slab_init establishes the well-formedness invariant that the other slab
claims rely on. -/
theorem slab_init_wf (b n : Nat) (zs : List Nat) (s : slab_t)
    (h : slab_init b n zs = (SLAB_OK, some s)) :
    slab_wf s ∧ s.initialized = true := by
  simp only [slab_init] at h
  split_ifs at h with h1 h2 h3 h4 h5 h6 h7 h8
  · rw [Prod.mk.injEq] at h
    exact absurd h.1 (by decide)
  · rw [Prod.mk.injEq] at h
    exact absurd h.1 (by decide)
  · rw [Prod.mk.injEq] at h
    exact absurd h.1 (by decide)
  · rw [Prod.mk.injEq] at h
    exact absurd h.1 (by decide)
  · rw [Prod.mk.injEq] at h
    exact absurd h.1 (by decide)
  · rw [Prod.mk.injEq] at h
    exact absurd h.1 (by decide)
  · rw [Prod.mk.injEq] at h
    exact absurd h.1 (by decide)
  · rw [Prod.mk.injEq] at h
    exact absurd h.1 (by decide)
  · rw [Prod.mk.injEq, Option.some.injEq] at h
    obtain ⟨-, hs⟩ := h
    set sorted := List.insertionSort (fun a b => a ≤ b) zs with hsortdef
    set astart := SLAB_ALIGN_UP b SLAB_ALIGNMENT with hastart
    set rsize := (n - (astart - b)) / zs.length / SLAB_ALIGNMENT * SLAB_ALIGNMENT
      with hrsize
    have hcls : s.classes = slab__build_classes astart rsize sorted := by rw [← hs]
    have hini : s.initialized = true := by rw [← hs]
    have hb0 : 0 < b := by omega
    have hsorted : sorted.Sorted (fun a b => a ≤ b) := by
      rw [hsortdef]
      exact List.sorted_insertionSort _ _
    have hastge : b ≤ astart := by
      rw [hastart]
      unfold SLAB_ALIGN_UP
      exact div_mul_align_ge b SLAB_ALIGNMENT (by decide)
    refine ⟨⟨?_, ?_, ?_⟩, hini⟩
    · rw [hcls]
      exact slab_build_classes_pairwise_slot sorted astart rsize hsorted
    · rw [hcls]
      exact slab_build_classes_pairwise_region sorted astart rsize
    · intro c hc
      rw [hcls] at hc
      obtain ⟨p0, z0, -, hge, he⟩ := slab_build_classes_mem_shape sorted _ _ c hc
      obtain ⟨hstart, -, hslot, -, hfree⟩ := slab_build_class_spec p0 z0 rsize
      subst he
      exact ⟨by omega, hslot, hfree⟩

/-- Witness for slab_alloc_best_fit: the slab over 128 bytes at base 8 with
classes 16 and 32; an allocation of 20 bytes pops the 32-byte class. -/
theorem slab_alloc_best_fit_witness :
    slab_wf (slab_t.mk 8 8 128 128
      [slab_class_t.mk 16 [8, 24, 40, 56] 8 72 4 4,
       slab_class_t.mk 32 [72, 104] 72 136 2 2] true) ∧
    (slab_t.mk 8 8 128 128
      [slab_class_t.mk 16 [8, 24, 40, 56] 8 72 4 4,
       slab_class_t.mk 32 [72, 104] 72 136 2 2] true).initialized = true ∧
    1 ≤ 20 ∧
    20 ≤ slab_max_alloc (slab_t.mk 8 8 128 128
      [slab_class_t.mk 16 [8, 24, 40, 56] 8 72 4 4,
       slab_class_t.mk 32 [72, 104] 72 136 2 2] true) ∧
    ((slab_alloc (slab_t.mk 8 8 128 128
        [slab_class_t.mk 16 [8, 24, 40, 56] 8 72 4 4,
         slab_class_t.mk 32 [72, 104] 72 136 2 2] true) 20 =
        (some 72, slab_t.mk 8 8 128 128
          [slab_class_t.mk 16 [8, 24, 40, 56] 8 72 4 4,
           slab_class_t.mk 32 [104] 72 136 2 1] true) →
      20 ≤ slab_usable_size (slab_t.mk 8 8 128 128
        [slab_class_t.mk 16 [8, 24, 40, 56] 8 72 4 4,
         slab_class_t.mk 32 [104] 72 136 2 1] true) 72 ∧
      ∀ c ∈ (slab_t.mk 8 8 128 128
        [slab_class_t.mk 16 [8, 24, 40, 56] 8 72 4 4,
         slab_class_t.mk 32 [72, 104] 72 136 2 2] true).classes,
        20 ≤ c.slot_size →
        slab_usable_size (slab_t.mk 8 8 128 128
          [slab_class_t.mk 16 [8, 24, 40, 56] 8 72 4 4,
           slab_class_t.mk 32 [104] 72 136 2 1] true) 72 ≤ c.slot_size) ∧
     (slab__find_class_for_size (slab_t.mk 8 8 128 128
        [slab_class_t.mk 16 [8, 24, 40, 56] 8 72 4 4,
         slab_class_t.mk 32 [72, 104] 72 136 2 2] true).classes 20 = some 1 →
      (slab_t.mk 8 8 128 128
        [slab_class_t.mk 16 [8, 24, 40, 56] 8 72 4 4,
         slab_class_t.mk 32 [72, 104] 72 136 2 2] true).classes[1]? =
          some (slab_class_t.mk 32 [72, 104] 72 136 2 2) →
      (slab_class_t.mk 32 [72, 104] 72 136 2 2).free_list = [] →
      (slab_alloc (slab_t.mk 8 8 128 128
        [slab_class_t.mk 16 [8, 24, 40, 56] 8 72 4 4,
         slab_class_t.mk 32 [72, 104] 72 136 2 2] true) 20).1 = none)) := by
  have hwf : slab_wf (slab_t.mk 8 8 128 128
      [slab_class_t.mk 16 [8, 24, 40, 56] 8 72 4 4,
       slab_class_t.mk 32 [72, 104] 72 136 2 2] true) :=
    (slab_init_wf 8 128 [16, 32] _ (by decide)).1
  exact ⟨hwf, rfl, by decide, by decide,
    slab_alloc_best_fit (slab_t.mk 8 8 128 128
        [slab_class_t.mk 16 [8, 24, 40, 56] 8 72 4 4,
         slab_class_t.mk 32 [72, 104] 72 136 2 2] true) 20 72
      (slab_t.mk 8 8 128 128
        [slab_class_t.mk 16 [8, 24, 40, 56] 8 72 4 4,
         slab_class_t.mk 32 [104] 72 136 2 1] true) 1
      (slab_class_t.mk 32 [72, 104] 72 136 2 2)
      hwf rfl (by decide) (by decide)⟩

/-- Counterexample to claim C6 as stated: slab_init compares the raw sizes
for duplicates before rounding, so the sizes 1 and 2, which both round up
to 8, are accepted: init succeeds (instead of returning the invalid-size
error) and produces two classes with the same aligned slot size 8. -/
theorem slab_init_rounding_duplicates_accepted :
    SLAB_ALIGN_UP 1 SLAB_ALIGNMENT = SLAB_ALIGN_UP 2 SLAB_ALIGNMENT ∧
    slab_init 8 128 [1, 2] =
      (SLAB_OK, some (slab_t.mk 8 8 128 128
        [slab_class_t.mk 8 [8, 16, 24, 32, 40, 48, 56, 64] 8 72 8 8,
         slab_class_t.mk 8 [72, 80, 88, 96, 104, 112, 120, 128] 72 136 8 8] true)) ∧
    slab__class_slot_size
      [slab_class_t.mk 8 [8, 16, 24, 32, 40, 48, 56, 64] 8 72 8 8,
       slab_class_t.mk 8 [72, 80, 88, 96, 104, 112, 120, 128] 72 136 8 8] 0 =
    slab__class_slot_size
      [slab_class_t.mk 8 [8, 16, 24, 32, 40, 48, 56, 64] 8 72 8 8,
       slab_class_t.mk 8 [72, 80, 88, 96, 104, 112, 120, 128] 72 136 8 8] 1 := by
  refine ⟨by decide, by decide, by decide⟩

/-- Helper for the amended C6: a sorted list without adjacent duplicates
has no duplicates at all. -/
theorem sorted_no_adjacent_dup_nodup : ∀ l : List Nat,
    l.Sorted (fun a b => a ≤ b) → slab__has_adjacent_dup l = false → l.Nodup := by
  intro l
  induction l with
  | nil => intro _ _; exact List.nodup_nil
  | cons x rest ih =>
    intro hs hd
    rcases rest with _ | ⟨y, rest2⟩
    · exact List.nodup_singleton x
    · rw [slab__has_adjacent_dup, Bool.or_eq_false_iff] at hd
      obtain ⟨hxy, hrest⟩ := hd
      have hxy' : x ≠ y := by simpa using hxy
      have hnd := ih hs.tail hrest
      refine List.nodup_cons.mpr ⟨?_, hnd⟩
      intro hmem
      rcases List.mem_cons.mp hmem with he | hm
      · exact hxy' he
      · have h1 : x ≤ y := (List.sorted_cons.mp hs).1 y (List.mem_cons_self _ _)
        have h2 : y ≤ x := (List.sorted_cons.mp hs.tail).1 x hm
        exact hxy' (le_antisymm h1 h2)

/-- Claim C6, amended.  slab_init rejects with the invalid-size error
exactly the arrays with two equal raw entries (checked after sorting but
before rounding to SLAB_ALIGNMENT); arrays whose entries become equal only
after rounding are accepted and produce classes with equal slot sizes, as
the counterexample shows.  The error leaves the slab unconstructed. -/
theorem slab_init_duplicate_rejected (b n : Nat) (zs : List Nat)
    (hb : b ≠ 0) (hn : n ≠ 0) (hzs : zs ≠ []) (hlen : zs.length ≤ SLAB_MAX_CLASSES)
    (hdup : ¬ zs.Nodup) :
    slab_init b n zs = (SLAB_ERR_INVALID_SIZE, none) := by
  have hlen0 : zs.length ≠ 0 := fun h0 => hzs (List.length_eq_zero.mp h0)
  have hmax : SLAB_MAX_CLASSES = 16 := rfl
  have hsorted := List.sorted_insertionSort (fun a b : Nat => a ≤ b) zs
  have hperm : List.Perm (List.insertionSort (fun a b : Nat => a ≤ b) zs) zs :=
    List.perm_insertionSort _ _
  have hnd : ¬ (List.insertionSort (fun a b : Nat => a ≤ b) zs).Nodup :=
    fun hh => hdup (hperm.nodup hh)
  simp only [slab_init]
  split_ifs with h1 h2 h3 h4 h5 h6 h7 h8
  · exact absurd h1 hb
  · rcases h2 with h | h
    · exact absurd h hn
    · exact absurd h hlen0
  · omega
  · rfl
  · rfl
  · exact absurd (sorted_no_adjacent_dup_nodup _ hsorted (by revert h5; cases slab__has_adjacent_dup (List.insertionSort (fun a b => a ≤ b) zs) <;> simp)) hnd
  · exact absurd (sorted_no_adjacent_dup_nodup _ hsorted (by revert h5; cases slab__has_adjacent_dup (List.insertionSort (fun a b => a ≤ b) zs) <;> simp)) hnd
  · exact absurd (sorted_no_adjacent_dup_nodup _ hsorted (by revert h5; cases slab__has_adjacent_dup (List.insertionSort (fun a b => a ≤ b) zs) <;> simp)) hnd
  · exact absurd (sorted_no_adjacent_dup_nodup _ hsorted (by revert h5; cases slab__has_adjacent_dup (List.insertionSort (fun a b => a ≤ b) zs) <;> simp)) hnd

/-- Witness for slab_init_duplicate_rejected: the duplicated raw size 16. -/
theorem slab_init_duplicate_rejected_witness :
    (8 : Nat) ≠ 0 ∧ (128 : Nat) ≠ 0 ∧ ([16, 16] : List Nat) ≠ [] ∧
    ([16, 16] : List Nat).length ≤ SLAB_MAX_CLASSES ∧ ¬ ([16, 16] : List Nat).Nodup ∧
    slab_init 8 128 [16, 16] = (SLAB_ERR_INVALID_SIZE, none) :=
  ⟨by decide, by decide, by decide, by decide, by decide,
    slab_init_duplicate_rejected 8 128 [16, 16] (by decide) (by decide) (by decide)
      (by decide) (by decide)⟩

/-- A value accepted by the power-of-two check is positive. -/
theorem stack_is_power_of_two_pos (x : Nat)
    (h : stack__is_power_of_two x = true) : 0 < x := by
  unfold stack__is_power_of_two at h
  rw [Bool.and_eq_true] at h
  have h1 := h.1
  have h2 : x ≠ 0 := by simpa using h1
  omega

/-- Claim C2, amended.  A successful nonzero-size arena allocation at
alignment a returns a pointer whose offset from the caller-supplied base is
a multiple of a, so the address itself is a multiple of a exactly when the
base is; the arena does not align the absolute address (see the
counterexample).  A successful stack allocation at a power-of-two alignment
a returns an absolutely aligned address, for every base. -/
theorem alloc_alignment
    (A : arena_t) (asz aal ap : Nat) (A' : arena_t)
    (S : stack_t) (ssz sal sp : Nat) (S' : stack_t)
    (_hAi : A.initialized = true) (hasz : 0 < asz)
    (hA : arena__alloc A asz aal = (some ap, A'))
    (hSb : 0 < S.buffer)
    (hSc : S.buffer + S.capacity + STACK_HEADER_SIZE < size_t_mod)
    (hSo : S.offset ≤ S.capacity)
    (hssz : ssz < size_t_mod)
    (hsal : stack__is_power_of_two sal = true)
    (hsalB : stack__eff_align sal < size_t_mod)
    (hS : stack_alloc_aligned S ssz sal = (some sp, S')) :
    ((ap - A.buffer) % aal = 0 ∧ (A.buffer % aal = 0 → ap % aal = 0)) ∧
    sp % sal = 0 := by
  obtain ⟨hle, hmod, hble, -, -, -, -, hpow⟩ :=
    arena_alloc_success A asz aal ap A' hasz hA
  have haal : 0 < aal := by
    unfold arena__is_power_of_two at hpow
    rw [Bool.and_eq_true] at hpow
    have h2 : aal ≠ 0 := by simpa using hpow.1
    omega
  obtain ⟨-, -, heffmod, -, -, -, -, -, -, -⟩ :=
    stack_alloc_success S ssz sal sp S' hSb hSc hSo hssz hsalB hS
  refine ⟨⟨hmod, ?_⟩, ?_⟩
  · intro hbase
    have hd1 : aal ∣ (ap - A.buffer) := Nat.dvd_of_mod_eq_zero hmod
    have hd2 : aal ∣ A.buffer := Nat.dvd_of_mod_eq_zero hbase
    have hap : ap = A.buffer + (ap - A.buffer) := by omega
    rw [hap]
    exact Nat.mod_eq_zero_of_dvd (Nat.dvd_add hd2 hd1)
  · have hpos : 0 < sal := stack_is_power_of_two_pos sal hsal
    have hdvd : sal ∣ stack__eff_align sal := by
      unfold stack__eff_align
      split_ifs with hlt
      · have h8 : STACK_MIN_ALIGNMENT = 8 := rfl
        rw [h8]
        rw [h8] at hlt
        interval_cases sal <;> revert hsal <;> decide
      · exact dvd_refl sal
    have heffdvd : stack__eff_align sal ∣ sp := Nat.dvd_of_mod_eq_zero heffmod
    exact Nat.mod_eq_zero_of_dvd (dvd_trans hdvd heffdvd)

/-- Witness for alloc_alignment: arena at the 8-aligned base 1000, stack at
base 8 with requested alignment 4 (raised internally to 8). -/
theorem alloc_alignment_witness :
    (arena_t.mk 1000 64 0 true).initialized = true ∧ (0 : Nat) < 8 ∧
    arena__alloc (arena_t.mk 1000 64 0 true) 8 8 =
      (some 1000, arena_t.mk 1000 64 8 true) ∧
    (0 : Nat) < (stack_t.mk 8 64 0 (fun _ => 0)).buffer ∧
    8 + 64 + STACK_HEADER_SIZE < size_t_mod ∧
    (8 : Nat) < size_t_mod ∧
    stack__is_power_of_two 4 = true ∧
    stack__eff_align 4 < size_t_mod ∧
    stack_alloc_aligned (stack_t.mk 8 64 0 (fun _ => 0)) 8 4 =
      (some 16, stack_t.mk 8 64 16 (fun x => if x = 8 then 0 else 0)) ∧
    (((1000 : Nat) - 1000) % 8 = 0 ∧ ((1000 : Nat) % 8 = 0 → 1000 % 8 = 0)) ∧
    (16 : Nat) % 4 = 0 :=
  ⟨rfl, by decide, by decide, by decide, by decide, by decide, by decide, by decide, rfl,
    by
      have h := alloc_alignment (arena_t.mk 1000 64 0 true) 8 8 1000
        (arena_t.mk 1000 64 8 true) (stack_t.mk 8 64 0 (fun _ => 0)) 8 4 16
        (stack_t.mk 8 64 16 (fun x => if x = 8 then 0 else 0))
        rfl (by decide) (by decide) (by decide) (by decide) (by decide)
        (by decide) (by decide) (by decide) rfl
      exact h.1,
    by
      have h := alloc_alignment (arena_t.mk 1000 64 0 true) 8 8 1000
        (arena_t.mk 1000 64 8 true) (stack_t.mk 8 64 0 (fun _ => 0)) 8 4 16
        (stack_t.mk 8 64 16 (fun x => if x = 8 then 0 else 0))
        rfl (by decide) (by decide) (by decide) (by decide) (by decide)
        (by decide) (by decide) (by decide) rfl
      exact h.2⟩

/-- Claim C3.  Whenever an allocation fails with a null return on any of the
four allocators (non-chaining arena, stack, pool, slab), the allocator state
is left exactly as it was: watermark, free list, free count, capacity and
every other descriptor field are unchanged. -/
theorem alloc_failure_state_unchanged
    (A : arena_t) (asz aal : Nat) (S : stack_t) (ssz sal : Nat)
    (P : pool_t) (L : slab_t) (n : Nat)
    (hA : (arena__alloc A asz aal).1 = none)
    (hS : (stack_alloc_aligned S ssz sal).1 = none)
    (hP : (pool_alloc P).1 = none)
    (hL : (slab_alloc L n).1 = none) :
    (arena__alloc A asz aal).2 = A ∧ (stack_alloc_aligned S ssz sal).2 = S ∧
    (pool_alloc P).2 = P ∧ (slab_alloc L n).2 = L :=
  ⟨arena_alloc_none_eq A asz aal hA, stack_alloc_none_eq S ssz sal hS,
   pool_alloc_none_eq P hP, slab_alloc_none_eq L n hL⟩

/-- Witness for alloc_failure_state_unchanged: an over-capacity arena and
stack request, an exhausted pool, an exhausted slab class. -/
theorem alloc_failure_state_unchanged_witness :
    (arena__alloc (arena_t.mk 1000 8 0 true) 16 8).1 = none ∧
    (stack_alloc_aligned (stack_t.mk 8 4 0 (fun _ => 0)) 8 8).1 = none ∧
    (pool_alloc (pool_t.mk 8 72 [] 8 8 0)).1 = none ∧
    (slab_alloc (slab_t.mk 8 8 72 72 [slab_class_t.mk 16 [] 8 72 4 0] true) 16).1 = none ∧
    ((arena__alloc (arena_t.mk 1000 8 0 true) 16 8).2 = arena_t.mk 1000 8 0 true ∧
     (stack_alloc_aligned (stack_t.mk 8 4 0 (fun _ => 0)) 8 8).2 =
       stack_t.mk 8 4 0 (fun _ => 0) ∧
     (pool_alloc (pool_t.mk 8 72 [] 8 8 0)).2 = pool_t.mk 8 72 [] 8 8 0 ∧
     (slab_alloc (slab_t.mk 8 8 72 72 [slab_class_t.mk 16 [] 8 72 4 0] true) 16).2 =
       slab_t.mk 8 8 72 72 [slab_class_t.mk 16 [] 8 72 4 0] true) :=
  ⟨by decide, rfl, by decide, by decide,
    alloc_failure_state_unchanged (arena_t.mk 1000 8 0 true) 16 8
      (stack_t.mk 8 4 0 (fun _ => 0)) 8 8 (pool_t.mk 8 72 [] 8 8 0)
      (slab_t.mk 8 8 72 72 [slab_class_t.mk 16 [] 8 72 4 0] true) 16
      (by decide) rfl (by decide) (by decide)⟩

/-- Claim C1.  For each allocator, two successful nonzero-size allocations
with arbitrary further allocations between them but no reset, rewind or
free, return non-overlapping byte ranges.  Arena: second pointer starts at
or after the end of the first.  Stack: likewise, for machine-sized requests
under the asserted power-of-two alignment contract.  Pool: the two slots
are distinct slot start addresses at least one slot size apart, under the
free-list well-formedness that pool_init establishes. -/
theorem alloc_ranges_disjoint
    (A : arena_t) (asz1 aal1 asz2 aal2 ap1 ap2 : Nat) (A1 A2 : arena_t)
    (areqs : List (Nat × Nat))
    (S : stack_t) (ssz1 sal1 ssz2 sal2 sp1 sp2 : Nat) (S1 S2 : stack_t)
    (sreqs : List (Nat × Nat))
    (P : pool_t) (q1 q2 : Nat) (P1 P2 : pool_t) (k : Nat)
    (_hAi : A.initialized = true)
    (hasz1 : 0 < asz1) (hasz2 : 0 < asz2)
    (hA1 : arena__alloc A asz1 aal1 = (some ap1, A1))
    (hA2 : arena__alloc (arena_run A1 areqs) asz2 aal2 = (some ap2, A2))
    (hSb : 0 < S.buffer)
    (hSc : S.buffer + S.capacity + STACK_HEADER_SIZE < size_t_mod)
    (hSo : S.offset ≤ S.capacity)
    (hssz1 : ssz1 < size_t_mod) (hsal1 : stack__eff_align sal1 < size_t_mod)
    (hsreqs : ∀ r ∈ sreqs, r.1 < size_t_mod ∧ stack__eff_align r.2 < size_t_mod ∧
      stack__is_power_of_two (stack__eff_align r.2) = true)
    (hssz2 : ssz2 < size_t_mod) (hsal2 : stack__eff_align sal2 < size_t_mod)
    (hS1 : stack_alloc_aligned S ssz1 sal1 = (some sp1, S1))
    (hS2 : stack_alloc_aligned (stack_run S1 sreqs) ssz2 sal2 = (some sp2, S2))
    (hPwf : pool_wf P)
    (hq1 : pool_alloc P = (some q1, P1))
    (hq2 : pool_alloc (pool_alloc_n P1 k) = (some q2, P2)) :
    (ap1 + asz1 ≤ ap2 ∨ ap2 + asz2 ≤ ap1) ∧
    (sp1 + ssz1 ≤ sp2 ∨ sp2 + ssz2 ≤ sp1) ∧
    (q1 ≠ q2 ∧ (q1 + P.slot_size ≤ q2 ∨ q2 + P.slot_size ≤ q1)) := by
  refine ⟨?_, ?_, ?_⟩
  · -- arena: the watermark only moves forward
    obtain ⟨hle1, -, hb1, hoff1, hbuf1, -, hini1, -⟩ :=
      arena_alloc_success A asz1 aal1 ap1 A1 hasz1 hA1
    obtain ⟨hrb, -, -, hro⟩ := arena_run_state areqs A1
    obtain ⟨hle2, -, -, -, -, -, -, -⟩ :=
      arena_alloc_success (arena_run A1 areqs) asz2 aal2 ap2 A2 hasz2 hA2
    left
    rw [hrb, hbuf1] at hle2
    omega
  · -- stack: same argument through the run invariant
    obtain ⟨-, hple1, -, -, hoff1, -, hole1, hb1, hc1, -⟩ :=
      stack_alloc_success S ssz1 sal1 sp1 S1 hSb hSc hSo hssz1 hsal1 hS1
    obtain ⟨hrb, hrc, hro, hroc⟩ := stack_run_state sreqs S1
      (by omega)
      (by rw [hb1, hc1]; exact hSc)
      (by rw [hc1]; exact hole1)
      (fun r hr => ⟨(hsreqs r hr).1, (hsreqs r hr).2.1⟩)
    obtain ⟨-, hple2, -, -, -, -, -, -, -, -⟩ :=
      stack_alloc_success (stack_run S1 sreqs) ssz2 sal2 sp2 S2
        (by omega)
        (by rw [hrb, hrc, hb1, hc1]; exact hSc)
        (by rw [hrc]; exact hroc)
        hssz2 hsal2 hS2
    left
    rw [hrb, hb1] at hple2
    have hH : STACK_HEADER_SIZE = 8 := rfl
    omega
  · -- pool: pops from a duplicate-free list of slot addresses
    obtain ⟨hslot, hnd, hend, hmem⟩ := hPwf
    unfold pool_alloc at hq1
    rcases hl : P.free_list with _ | ⟨h1, rest⟩
    · rw [hl] at hq1
      rw [Prod.mk.injEq] at hq1
      exact Option.noConfusion hq1.1
    · rw [hl] at hq1
      rw [Prod.mk.injEq, Option.some.injEq] at hq1
      obtain ⟨hq1v, hP1⟩ := hq1
      rw [hq1v] at hl
      obtain ⟨nb, ne, ns, nc, nl⟩ := pool_alloc_n_spec k P1
      have hP1l : P1.free_list = rest := by rw [← hP1]
      have hP1s : P1.slot_size = P.slot_size := by rw [← hP1]
      unfold pool_alloc at hq2
      rcases hdl : (pool_alloc_n P1 k).free_list with _ | ⟨h2, rest2⟩
      · rw [hdl] at hq2
        rw [Prod.mk.injEq] at hq2
        exact Option.noConfusion hq2.1
      · rw [hdl] at hq2
        rw [Prod.mk.injEq, Option.some.injEq] at hq2
        obtain ⟨hq2v, -⟩ := hq2
        rw [hq2v] at hdl
        have hq2drop : q2 ∈ P1.free_list.drop k := by
          rw [← nl, hdl]
          exact List.mem_cons_self _ _
        have hq2rest : q2 ∈ rest := by
          rw [hP1l] at hq2drop
          exact List.mem_of_mem_drop hq2drop
        have hne : q1 ≠ q2 := by
          intro he
          rw [hl] at hnd
          exact (List.nodup_cons.mp hnd).1 (he ▸ hq2rest)
        have hm1 : q1 ∈ pool__build_free_list P.buffer P.slot_size P.slot_count :=
          hmem q1 (by rw [hl]; exact List.mem_cons_self _ _)
        have hm2 : q2 ∈ pool__build_free_list P.buffer P.slot_size P.slot_count :=
          hmem q2 (by rw [hl]; exact List.mem_cons_of_mem _ hq2rest)
        unfold pool__build_free_list at hm1 hm2
        rw [List.mem_map] at hm1 hm2
        obtain ⟨i1, -, hi1⟩ := hm1
        obtain ⟨i2, -, hi2⟩ := hm2
        refine ⟨hne, ?_⟩
        have hii : i1 ≠ i2 := by
          intro he
          exact hne (by rw [← hi1, ← hi2, he])
        rcases Nat.lt_or_ge i1 i2 with hlt | hge
        · left
          have : (i1 + 1) * P.slot_size ≤ i2 * P.slot_size :=
            Nat.mul_le_mul_right _ (by omega)
          have he1 : (i1 + 1) * P.slot_size = i1 * P.slot_size + P.slot_size := by ring
          omega
        · right
          have hlt2 : i2 < i1 := by omega
          have : (i2 + 1) * P.slot_size ≤ i1 * P.slot_size :=
            Nat.mul_le_mul_right _ (by omega)
          have he1 : (i2 + 1) * P.slot_size = i2 * P.slot_size + P.slot_size := by ring
          omega

/-- Witness for alloc_ranges_disjoint: two allocations on each allocator
with no intervening requests. -/
theorem alloc_ranges_disjoint_witness :
    (arena_t.mk 1000 64 0 true).initialized = true ∧
    (0 : Nat) < 8 ∧ (0 : Nat) < 4 ∧
    arena__alloc (arena_t.mk 1000 64 0 true) 8 8 =
      (some 1000, arena_t.mk 1000 64 8 true) ∧
    arena__alloc (arena_run (arena_t.mk 1000 64 8 true) []) 4 4 =
      (some 1008, arena_t.mk 1000 64 12 true) ∧
    (0 : Nat) < (stack_t.mk 8 64 0 (fun _ => 0)).buffer ∧
    8 + 64 + STACK_HEADER_SIZE < size_t_mod ∧
    (0 : Nat) ≤ 64 ∧
    (8 : Nat) < size_t_mod ∧ stack__eff_align 8 < size_t_mod ∧
    (∀ r ∈ ([] : List (Nat × Nat)),
      r.1 < size_t_mod ∧ stack__eff_align r.2 < size_t_mod ∧
      stack__is_power_of_two (stack__eff_align r.2) = true) ∧
    stack_alloc_aligned (stack_t.mk 8 64 0 (fun _ => 0)) 8 8 =
      (some 16, stack_t.mk 8 64 16 (fun x => if x = 8 then 0 else 0)) ∧
    stack_alloc_aligned
      (stack_run (stack_t.mk 8 64 16 (fun x => if x = 8 then 0 else 0)) []) 8 8 =
      (some 32, stack_t.mk 8 64 32
        (fun x => if x = 24 then 16 else if x = 8 then 0 else 0)) ∧
    pool_wf (pool_t.mk 8 72 [8, 16, 24, 32, 40, 48, 56, 64] 8 8 8) ∧
    pool_alloc (pool_t.mk 8 72 [8, 16, 24, 32, 40, 48, 56, 64] 8 8 8) =
      (some 8, pool_t.mk 8 72 [16, 24, 32, 40, 48, 56, 64] 8 8 7) ∧
    pool_alloc (pool_alloc_n (pool_t.mk 8 72 [16, 24, 32, 40, 48, 56, 64] 8 8 7) 0) =
      (some 16, pool_t.mk 8 72 [24, 32, 40, 48, 56, 64] 8 8 6) ∧
    ((1000 + 8 ≤ 1008 ∨ 1008 + 4 ≤ 1000) ∧
     (16 + 8 ≤ 32 ∨ 32 + 8 ≤ 16) ∧
     ((8 : Nat) ≠ 16 ∧
      (8 + (pool_t.mk 8 72 [8, 16, 24, 32, 40, 48, 56, 64] 8 8 8).slot_size ≤ 16 ∨
       16 + (pool_t.mk 8 72 [8, 16, 24, 32, 40, 48, 56, 64] 8 8 8).slot_size ≤ 8))) :=
  by
  have hwf : pool_wf (pool_t.mk 8 72 [8, 16, 24, 32, 40, 48, 56, 64] 8 8 8) := by
    unfold pool_wf
    exact ⟨by decide, by decide, by decide, by decide⟩
  exact ⟨rfl, by decide, by decide, by decide, by decide, by decide, by decide, by decide,
   by decide, by decide, by decide, rfl, rfl, hwf, by decide, by decide,
   alloc_ranges_disjoint
     (arena_t.mk 1000 64 0 true) 8 8 4 4 1000 1008
     (arena_t.mk 1000 64 8 true) (arena_t.mk 1000 64 12 true) []
     (stack_t.mk 8 64 0 (fun _ => 0)) 8 8 8 8 16 32
     (stack_t.mk 8 64 16 (fun x => if x = 8 then 0 else 0))
     (stack_t.mk 8 64 32 (fun x => if x = 24 then 16 else if x = 8 then 0 else 0)) []
     (pool_t.mk 8 72 [8, 16, 24, 32, 40, 48, 56, 64] 8 8 8) 8 16
     (pool_t.mk 8 72 [16, 24, 32, 40, 48, 56, 64] 8 8 7)
     (pool_t.mk 8 72 [24, 32, 40, 48, 56, 64] 8 8 6) 0
     rfl (by decide) (by decide) (by decide) (by decide) (by decide) (by decide)
     (by decide) (by decide) (by decide) (by decide) (by decide) (by decide)
     rfl rfl hwf (by decide) (by decide)⟩
